import Mathlib

/-!
Graceful shutdown demo (`context/shutdown-demo`).

A shallow embedding of `service/service.go` and of the callback of `main.go`,
followed by the properties of the request gate, of the construction of an
`App` and of the shutdown sequence.

Conventions of the embedding:

* `time.Duration` and instants are integers counting nanoseconds.
* A pointer to a `Server` is the position of that server in `app.servers`;
  the servers of an `App` are distinct objects.
* `net/http` and `context` are library code.  What the program uses of them
  (`http.ServeMux`, `http.Server`, `context.WithTimeout`) is modelled by the
  small definitions marked "library" below; the pattern matching performed by
  `http.ServeMux` is left as a parameter `find`.
* Goroutines are interleaved by a scheduler: a run of the program is a list
  of `Move`s, and every statement that can block is a move with a guard.
  Between two blocking points a goroutine runs in one step, memory is
  sequentially consistent, and handlers and callbacks do not panic.
* A callback is known by the instant at which it returns, given the context
  it received; a handler by the calls it makes on the response writer.
-/

namespace service

/-! ## Time -/

/-- Instants and `time.Duration`, in nanoseconds. -/
abbrev Time := Int

/-- Go `time.Duration`. -/
abbrev Duration := Int

/-- Go `time.Second`. -/
def Second : Duration := 1000000000

/-! ## Errors and contexts (library) -/

/-- The `error` values the program can meet. -/
inductive Err where
  | ErrServerClosed
  | DeadlineExceeded
  | other (msg : String)
  deriving DecidableEq, Repr

/-- The `Error()` text of an error. -/
def Err.Error : Err → String
  | .ErrServerClosed => "http: Server closed"
  | .DeadlineExceeded => "context deadline exceeded"
  | .other msg => msg

/-- A `context.Context`, reduced to its deadline (`none`: it never expires). -/
structure Context where
  deadline : Option Time
  deriving DecidableEq, Repr

/-- Go `context.Background()`: no deadline. -/
def Context.Background : Context := ⟨none⟩

/-- Go `context.WithTimeout(parent, d)` called at instant `now`: the deadline
is `now + d`, unless the parent expires earlier. -/
def Context.WithTimeout (parent : Context) (d : Duration) (now : Time) : Context :=
  match parent.deadline with
  | none => ⟨some (now + d)⟩
  | some p => ⟨some (min p (now + d))⟩

/-! ## Requests and responses (library) -/

/-- An `http.Request`, reduced to what routing looks at. -/
structure Request where
  method : String
  host : String
  path : String
  deriving DecidableEq, Repr

/-- A call made on an `http.ResponseWriter`. -/
inductive WCall where
  | WriteHeader (code : Nat)
  | Write (body : String)
  deriving DecidableEq, Repr

/-- Go `http.StatusServiceUnavailable`. -/
def StatusServiceUnavailable : Nat := 503

/-- Go `http.StatusOK`. -/
def StatusOK : Nat := 200

/-- An `http.ResponseWriter` as seen from outside: the calls made on it, in
order, and how many times the wrapped `http.ServeMux` was entered while
writing to it (a ghost counter that no handler can touch). -/
structure ResponseWriter where
  calls : List WCall
  muxEntered : Nat
  deriving DecidableEq, Repr

/-- A writer nothing was written to. -/
def ResponseWriter.fresh : ResponseWriter := ⟨[], 0⟩

/-- Go `w.WriteHeader(code)`. -/
def ResponseWriter.WriteHeader (w : ResponseWriter) (code : Nat) : ResponseWriter :=
  { w with calls := w.calls ++ [WCall.WriteHeader code] }

/-- Go `w.Write(body)`. -/
def ResponseWriter.Write (w : ResponseWriter) (body : String) : ResponseWriter :=
  { w with calls := w.calls ++ [WCall.Write body] }

/-- The status line the client receives: the first `WriteHeader` wins, and a
`Write` that comes first sends 200. -/
def ResponseWriter.status (w : ResponseWriter) : Option Nat :=
  match w.calls with
  | [] => none
  | WCall.WriteHeader code :: _ => some code
  | WCall.Write _ :: _ => some StatusOK

/-- The body the client receives: the written chunks, in order. -/
def ResponseWriter.body (w : ResponseWriter) : String :=
  w.calls.foldl (fun acc c => match c with
    | WCall.WriteHeader _ => acc
    | WCall.Write b => acc ++ b) ""

/-- An `http.Handler`: the calls it makes on the response writer for a
request. -/
abbrev Handler := Request → List WCall

/-- An `http.ServeMux`: the registered (pattern, handler) pairs, in
registration order. -/
structure ServeMux where
  routes : List (String × Handler)

/-- Go `http.NewServeMux()`. -/
def NewServeMux : ServeMux := ⟨[]⟩

/-- Go `(*http.ServeMux).Handle` for a registration that is accepted
(`net/http` aborts the process on an invalid or conflicting pattern). -/
def ServeMux.Handle (m : ServeMux) (pattern : String) (handler : Handler) : ServeMux :=
  ⟨m.routes ++ [(pattern, handler)]⟩

/-- The routing of `net/http`: the handler chosen for a request among the
registered routes (the not-found handler when none matches). -/
abbrev Find := List (String × Handler) → Request → Handler

/-- Go `(*http.ServeMux).ServeHTTP`: the chosen handler runs on the writer. -/
def ServeMux.ServeHTTP (find : Find) (m : ServeMux) (w : ResponseWriter) (r : Request) :
    ResponseWriter :=
  { calls := w.calls ++ find m.routes r r, muxEntered := w.muxEntered + 1 }

/-! ## The request gate: `serverMux` -/

/-- Go `serverMux`: the wrapped `http.ServeMux` and the `reject` flag. -/
structure serverMux where
  ServeMux : ServeMux
  reject : Bool

/-- Go `(*serverMux).ServeHTTP`. -/
def serverMux.ServeHTTP (find : Find) (s : serverMux) (w : ResponseWriter) (r : Request) :
    ResponseWriter :=
  if s.reject then
    (w.WriteHeader StatusServiceUnavailable).Write "服务已关闭"
  else
    s.ServeMux.ServeHTTP find w r

/-! ## `http.Server` (library) -/

/-- What the network does to one listener: whether binding the address
fails, how long after `Shutdown` begins the connections are all idle
(`none`: never), and the error of closing the listeners. -/
structure SrvWorld where
  bindErr : Option Err
  idleAfter : Option Nat
  closeErr : Option Err
  deriving DecidableEq, Repr

/-- An `http.Server`: its address and its state.  Its `Handler` field is the
`serverMux` of the `Server` that owns it. -/
structure HttpServer where
  Addr : String
  inShutdown : Bool
  listening : Bool
  deriving DecidableEq, Repr

/-- Go `(*http.Server).ListenAndServe` up to the point where it either
returns an error or blocks serving (`none`). -/
def HttpServer.ListenAndServe (srv : HttpServer) (wd : SrvWorld) : HttpServer × Option Err :=
  if srv.inShutdown then (srv, some Err.ErrServerClosed)
  else match wd.bindErr with
    | some e => (srv, some e)
    | none => ({ srv with listening := true }, none)

/-- Go `(*http.Server).Shutdown(ctx)` called at `now`: the listeners are
closed at once; the call returns the close error when the connections are
idle, or `ctx.Err()` when the context expires first, and never returns when
neither happens (`none`). -/
def HttpServer.Shutdown (srv : HttpServer) (wd : SrvWorld) (ctx : Context) (now : Time) :
    HttpServer × Option (Time × Option Err) :=
  ({ srv with inShutdown := true, listening := false },
    match wd.idleAfter, ctx.deadline with
    | some d, none => some (now + d, wd.closeErr)
    | some d, some dl =>
        if now + d ≤ dl then some (now + d, wd.closeErr)
        else some (max dl now, some Err.DeadlineExceeded)
    | none, some dl => some (max dl now, some Err.DeadlineExceeded)
    | none, none => none)

/-! ## `Server` -/

/-- Go `Server`. -/
structure Server where
  name : String
  srv : HttpServer
  mux : serverMux

/-- Go `NewServer`. -/
def NewServer (name : String) (addr : String) : Server :=
  { name := name
    mux := { ServeMux := NewServeMux, reject := false }
    srv := { Addr := addr, inShutdown := false, listening := false } }

/-- Go `(*Server).Handle`. -/
def Server.Handle (s : Server) (pattern : String) (handler : Handler) : Server :=
  { s with mux := { s.mux with ServeMux := s.mux.ServeMux.Handle pattern handler } }

/-- Go `(*Server).rejectReq`. -/
def Server.rejectReq (s : Server) : Server :=
  { s with mux := { s.mux with reject := true } }

/-- Go `(*Server).start`. -/
def Server.start (s : Server) (wd : SrvWorld) : Server × Option Err :=
  let r := s.srv.ListenAndServe wd
  ({ s with srv := r.1 }, r.2)

/-- The line `(*Server).stop` logs before shutting down. -/
def Server.stopLog (s : Server) : String := "服务" ++ s.name ++ "关闭中\n"

/-- Go `(*Server).stop` called at `now`: the server afterwards, and the
instant and error of the return (`none`: the call never returns). -/
def Server.stop (s : Server) (wd : SrvWorld) (now : Time) :
    Server × Option (Time × Option Err) :=
  let r := s.srv.Shutdown wd Context.Background now
  ({ s with srv := r.1 }, r.2)

/-- The operations of the package on one server. -/
inductive ServerOp where
  | Handle (pattern : String) (handler : Handler)
  | rejectReq
  | start (wd : SrvWorld)
  | stop (wd : SrvWorld) (now : Time)
  | ServeHTTP (w : ResponseWriter) (r : Request)

/-- The server after an operation (`ServeHTTP` only writes to `w`). -/
def Server.apply (s : Server) : ServerOp → Server
  | .Handle p h => s.Handle p h
  | .rejectReq => s.rejectReq
  | .start wd => (s.start wd).1
  | .stop wd now => (s.stop wd now).1
  | .ServeHTTP _ _ => s

/-! ## `App` -/

/-- Go `ShutdownCallback`: given the context it is handed and the instant of
the call, the instant at which the callback returns (`none`: never). -/
abbrev ShutdownCallback := Context → Time → Option Time

/-- Go `App`. -/
structure App where
  servers : List Server
  shutdownTimeout : Duration
  waitTime : Duration
  cbTimeout : Duration
  cbs : List ShutdownCallback

/-- Go `Option` (renamed: the name is taken in Lean). -/
abbrev Opt := App → App

/-- Go `WithShutdownCallbacks`. -/
def WithShutdownCallbacks (cbs : List ShutdownCallback) : Opt :=
  fun app => { app with cbs := cbs }

/-- Go `WithTimeCfg`. -/
def WithTimeCfg (shutdownTimeout waitTime cbTimeout : Duration) : Opt :=
  fun app => { app with
    shutdownTimeout := shutdownTimeout, waitTime := waitTime, cbTimeout := cbTimeout }

/-- Go `NewApp`: the zero value of `App` with `servers` set, then the
options in order. -/
def NewApp (servers : List Server) (opts : List Opt) : App :=
  opts.foldl (fun app opt => opt app)
    { servers := servers, shutdownTimeout := 0, waitTime := 0, cbTimeout := 0, cbs := [] }

/-- Go `StoreCacheToDBCallBack` of `main.go`: it returns when the two
seconds of work are over or when the context expires, whichever is first. -/
def StoreCacheToDBCallBack : ShutdownCallback :=
  fun ctx now =>
    match ctx.deadline with
    | none => some (now + 2 * Second)
    | some dl => some (min (now + 2 * Second) (max dl now))

/-! ## The running program

`App.Run` spawns one goroutine per server, waits for a signal or for its two
seconds, and calls `App.shutdown`, which spawns one goroutine per server and
one per callback.  The state below holds the program counter of the main
goroutine, the state of every spawned goroutine, the `sync.WaitGroup`
counter and the heap (the servers); the trace records what happened. -/

/-- What happens during a run. -/
inductive Event where
  /-- A line written with `log.Println` or `log.Printf`. -/
  | log (msg : String)
  /-- Listener `i` is bound and `ListenAndServe` starts serving. -/
  | listen (i : Nat)
  /-- Listener `i` handed request `r` to its handler, which left the writer
  `w`. -/
  | served (i : Nat) (r : Request) (w : ResponseWriter)
  /-- The call `s.rejectReq()` on server `i` in `shutdown` has returned. -/
  | rejectReq (i : Nat)
  /-- The call `time.Sleep(d)` of `shutdown` begins. -/
  | waitStart (d : Duration)
  /-- That call returns. -/
  | waitEnd
  /-- The call `srv.stop()` on server `i` begins. -/
  | stopStart (i : Nat)
  /-- That call returns `err`. -/
  | stopEnd (i : Nat) (err : Option Err)
  /-- The call `c(ctx)` of callback `j` begins. -/
  | cbStart (j : Nat) (ctx : Context)
  /-- That call returns. -/
  | cbEnd (j : Nat)
  /-- The call `app.close()` begins. -/
  | closeStart
  /-- That call returns. -/
  | closeEnd
  deriving DecidableEq, Repr

/-- A spawned goroutine: not scheduled yet, inside its blocking call (with
its local variables), or finished. -/
inductive Goroutine (α : Type) where
  | ready
  | running (loc : α)
  | done
  deriving DecidableEq, Repr

/-- Whether a goroutine has not finished. -/
def Goroutine.pending {α : Type} : Goroutine α → Bool
  | .done => false
  | _ => true

/-- Where the main goroutine stands. -/
inductive PC where
  /-- In `Run`, at the `select`; the timer fires at `timeout`. -/
  | select (timeout : Time)
  /-- In `shutdown`, in the first loop, about to treat server `k`. -/
  | rejecting (k : Nat)
  /-- In `shutdown`, inside `time.Sleep(app.waitTime)`. -/
  | sleeping (upto : Time)
  /-- In `shutdown`, at the first `wg.Wait()`. -/
  | stopWait
  /-- In `shutdown`, at the second `wg.Wait()`. -/
  | cbWait
  /-- In `close`, inside `time.Sleep(time.Second)`. -/
  | closing (upto : Time)
  /-- The call of `Run` has returned. -/
  | terminated
  deriving DecidableEq, Repr

/-- The state of the program. -/
structure Sys where
  now : Time
  world : Nat → SrvWorld
  find : Find
  app : App
  pc : PC
  startG : List (Goroutine Unit)
  stopG : List (Goroutine Time)
  cbG : List (Goroutine (Context × Time))
  wg : Nat
  trace : List (Time × Event)

/-- What the scheduler and the environment can do next. -/
inductive Move where
  /-- Time passes. -/
  | tick (d : Nat)
  /-- User code registers a route on server `i`. -/
  | Handle (i : Nat) (pattern : String) (handler : Handler)
  /-- A request reaches the handler of server `i`. -/
  | request (i : Nat) (r : Request)
  /-- The goroutine of `Run` for server `i` calls `srv.start()`. -/
  | start (i : Nat)
  /-- That call returns because the server was shut down. -/
  | startRet (i : Nat)
  /-- A termination signal is delivered. -/
  | signal
  /-- The main goroutine executes up to its next blocking point (one
  iteration at a time in the first loop of `shutdown`). -/
  | main
  /-- The goroutine of `shutdown` for server `i` calls `srv.stop()`. -/
  | stopStart (i : Nat)
  /-- That call returns. -/
  | stopEnd (i : Nat)
  /-- The goroutine of `shutdown` for callback `j` makes the context and
  calls the callback with it. -/
  | cbStart (j : Nat)
  /-- That call returns. -/
  | cbEnd (j : Nat)

/-- Events are appended to the trace with the current instant. -/
def Sys.emit (s : Sys) (es : List Event) : Sys :=
  { s with trace := s.trace ++ es.map (fun e => (s.now, e)) }

/-- The heap cell of server `i` is overwritten. -/
def Sys.setServer (s : Sys) (i : Nat) (v : Server) : Sys :=
  { s with app := { s.app with servers := s.app.servers.set i v } }

/-- The log line of `Run` when `srv.start()` returns an error. -/
def startLog (srv : Server) (err : Err) : String :=
  if err = Err.ErrServerClosed then "服务" ++ srv.name ++ "已关闭"
  else "服务" ++ srv.name ++ "异常: " ++ err.Error

/-- The log line of `shutdown` when `srv.stop()` returns an error. -/
def stopFailLog (srv : Server) : Option Err → List Event
  | none => []
  | some err => [Event.log ("关闭服务" ++ srv.name ++ "失败:" ++ err.Error ++ "\n")]

/-- Entry of Go `App.shutdown`: its first log line; the loop over the servers
is next. -/
def Sys.enterShutdown (s : Sys) : Sys :=
  { s.emit [Event.log "开始关闭应用，停止接受新请求"] with pc := PC.rejecting 0 }

/-- Go `App.close`, inside its `time.Sleep(time.Second)` that ends at `upto`
(`none`: still sleeping). -/
def Sys.close (s : Sys) (upto : Time) : Option Sys :=
  if upto ≤ s.now then
    -- log.Println("应用关闭"), and `close`, `shutdown` and `Run` return
    some { s.emit [Event.log "应用关闭", Event.closeEnd] with pc := PC.terminated }
  else none

/-- Go `App.shutdown`, resumed where the main goroutine stands, up to its
next blocking point (`none`: it is blocked, or not in `shutdown`). -/
def Sys.shutdown (s : Sys) : Option Sys :=
  match s.pc with
  | .rejecting k =>
      match s.app.servers[k]? with
      | some srv =>
          -- for _, s := range app.servers { s.rejectReq() }
          some { (s.setServer k srv.rejectReq).emit [Event.rejectReq k] with
            pc := PC.rejecting (k + 1) }
      | none =>
          -- log.Println("等待正在执行请求完结"); time.Sleep(app.waitTime)
          some { s.emit [Event.log "等待正在执行请求完结", Event.waitStart s.app.waitTime] with
            pc := PC.sleeping (s.now + s.app.waitTime) }
  | .sleeping upto =>
      if upto ≤ s.now then
        -- log.Println("停止所有服务"); wg.Add(len(app.servers));
        -- one `go func() { defer wg.Done(); srv.stop() ... }()` per server; wg.Wait()
        some { s.emit [Event.waitEnd, Event.log "停止所有服务"] with
          wg := s.wg + s.app.servers.length
          stopG := List.replicate s.app.servers.length Goroutine.ready
          pc := PC.stopWait }
      else none
  | .stopWait =>
      if s.wg = 0 then
        -- log.Println("开始执行自定义回调"); wg.Add(len(app.cbs));
        -- one `go func() { defer wg.Done(); ...; c(ctx); cancel() }()` per callback; wg.Wait()
        some { s.emit [Event.log "开始执行自定义回调"] with
          wg := s.wg + s.app.cbs.length
          cbG := List.replicate s.app.cbs.length Goroutine.ready
          pc := PC.cbWait }
      else none
  | .cbWait =>
      if s.wg = 0 then
        -- log.Println("开始释放资源"); app.close(), which starts with time.Sleep(time.Second)
        some { s.emit [Event.log "开始释放资源", Event.closeStart] with
          pc := PC.closing (s.now + Second) }
      else none
  | _ => none

/-- The main goroutine runs to its next blocking point (`none`: it is
blocked, or has returned): the `select` of `Run`, then `shutdown`, then
`close`. -/
def Sys.main (s : Sys) : Option Sys :=
  match s.pc with
  | .select timeout =>
      -- case <-timeout: log.Println("超时退出"); app.shutdown()
      if timeout ≤ s.now then some (s.emit [Event.log "超时退出"]).enterShutdown else none
  | .closing upto => s.close upto
  | .terminated => none
  | _ => s.shutdown

/-- One move of the program (`none`: the move is not enabled). -/
def Sys.step (s : Sys) : Move → Option Sys
  | .tick d => some { s with now := s.now + d }
  | .Handle i pattern handler =>
      match s.app.servers[i]? with
      | some srv => some (s.setServer i (srv.Handle pattern handler))
      | none => none
  | .request i r =>
      match s.app.servers[i]? with
      | some srv =>
          if srv.srv.listening then
            some (s.emit [Event.served i r (srv.mux.ServeHTTP s.find ResponseWriter.fresh r)])
          else none
      | none => none
  | .start i =>
      match s.startG[i]?, s.app.servers[i]? with
      | some .ready, some srv =>
          -- go func() { if err := srv.start(); err != nil { log.Printf(...) } }()
          match (srv.start (s.world i)).2 with
          | some err =>
              some { (s.setServer i (srv.start (s.world i)).1).emit
                  [Event.log (startLog srv err)] with
                startG := s.startG.set i Goroutine.done }
          | none =>
              some { (s.setServer i (srv.start (s.world i)).1).emit [Event.listen i] with
                startG := s.startG.set i (Goroutine.running ()) }
      | _, _ => none
  | .startRet i =>
      match s.startG[i]?, s.app.servers[i]? with
      | some (.running _), some srv =>
          if srv.srv.inShutdown then
            some { s.emit [Event.log (startLog srv Err.ErrServerClosed)] with
              startG := s.startG.set i Goroutine.done }
          else none
      | _, _ => none
  | .signal =>
      match s.pc with
      -- case <-ch: log.Println("强制退出"); app.shutdown()
      | .select _ => some (s.emit [Event.log "强制退出"]).enterShutdown
      | _ => none
  | .main => s.main
  | .stopStart i =>
      match s.stopG[i]?, s.app.servers[i]? with
      | some .ready, some srv =>
          -- srv.stop(): log.Printf("服务%s关闭中\n", s.name); s.srv.Shutdown(context.Background())
          some { (s.setServer i (srv.stop (s.world i) s.now).1).emit
              [Event.stopStart i, Event.log srv.stopLog] with
            stopG := s.stopG.set i (Goroutine.running s.now) }
      | _, _ => none
  | .stopEnd i =>
      match s.stopG[i]?, s.app.servers[i]? with
      | some (.running since), some srv =>
          match (srv.stop (s.world i) since).2 with
          | some (ret, err) =>
              if ret ≤ s.now then
                -- if err != nil { log.Printf("关闭服务%s失败:%v\n", srv.name, err) }; wg.Done()
                some { s.emit (Event.stopEnd i err :: stopFailLog srv err) with
                  wg := s.wg - 1
                  stopG := s.stopG.set i Goroutine.done }
              else none
          | none => none
      | _, _ => none
  | .cbStart j =>
      match s.cbG[j]? with
      | some .ready =>
          -- ctx, cancel := context.WithTimeout(context.Background(), app.cbTimeout); c(ctx)
          let ctx := Context.WithTimeout Context.Background s.app.cbTimeout s.now
          some { s.emit [Event.cbStart j ctx] with
            cbG := s.cbG.set j (Goroutine.running (ctx, s.now)) }
      | _ => none
  | .cbEnd j =>
      match s.cbG[j]?, s.app.cbs[j]? with
      | some (.running (ctx, since)), some c =>
          match c ctx since with
          | some ret =>
              if ret ≤ s.now then
                -- c(ctx) returns; cancel(); wg.Done()
                some { s.emit [Event.cbEnd j] with
                  wg := s.wg - 1
                  cbG := s.cbG.set j Goroutine.done }
              else none
          | none => none
      | _, _ => none

/-- A schedule is executed move by move; a move that is not enabled is
skipped. -/
def Sys.run (s : Sys) (ms : List Move) : Sys :=
  ms.foldl (fun st m => (st.step m).getD st) s

/-- Go `App.Run` called at instant `t0`: the state at the `select`, with the
start goroutines spawned and the two-second timer armed. -/
def App.Run (app : App) (world : Nat → SrvWorld) (find : Find) (t0 : Time) : Sys :=
  { now := t0
    world := world
    find := find
    app := app
    pc := PC.select (t0 + 2 * Second)
    startG := List.replicate app.servers.length Goroutine.ready
    stopG := []
    cbG := []
    wg := 0
    trace := [] }

/-! ## Vocabulary of the properties: responses, traces, counts, measures -/

/-- The response of a closed gate: status 503 and the fixed body. -/
def rejected (w : ResponseWriter) : ResponseWriter :=
  { calls := w.calls ++ [WCall.WriteHeader 503, WCall.Write "服务已关闭"]
    muxEntered := w.muxEntered }

/-- The phase the main goroutine is in. -/
def PC.rank : PC → Nat
  | .select _ => 0
  | .rejecting _ => 1
  | .sleeping _ => 2
  | .stopWait => 3
  | .cbWait => 4
  | .closing _ => 5
  | .terminated => 6

/-- Some event of the trace satisfies `a`. -/
def Occurs (a : Event → Prop) (tr : List (Time × Event)) : Prop :=
  ∃ y ∈ tr, a y.2

/-- Every event `x` of the trace satisfies `Q pre x`, where `pre` is the
trace up to `x`. -/
def Hist (Q : List (Time × Event) → Time × Event → Prop) (tr : List (Time × Event)) : Prop :=
  ∀ pre x post, tr = pre ++ x :: post → Q pre x

/-- Every event satisfying `b` comes after an event satisfying `a`. -/
def Precedes (a b : Event → Prop) (tr : List (Time × Event)) : Prop :=
  Hist (fun pre x => b x.2 → Occurs a pre) tr

/-- The phase of `App.shutdown` an event belongs to (0: none). -/
def Event.phase : Event → Nat
  | .rejectReq _ => 1
  | .waitStart _ => 2
  | .waitEnd => 2
  | .stopStart _ => 3
  | .stopEnd _ _ => 3
  | .cbStart _ _ => 4
  | .cbEnd _ => 4
  | .closeStart => 5
  | .closeEnd => 5
  | _ => 0

/-- No event of a phase comes after an event of a later phase. -/
def Phased (tr : List (Time × Event)) : Prop :=
  tr.Pairwise (fun x y => y.2.phase ≠ 0 → x.2.phase ≤ y.2.phase)

/-- The events `es`, appended to `tr`, satisfy `Q`. -/
def HistFrom (Q : List (Time × Event) → Time × Event → Prop) :
    List (Time × Event) → List (Time × Event) → Prop
  | _, [] => True
  | tr, x :: es => Q tr x ∧ HistFrom Q (tr ++ [x]) es

/-- What the program guarantees about an event when it happens, given the
trace so far: the barrier before it, the context a callback receives, and
the response of a closed gate. -/
def Good (N M : Nat) (wt cbT : Duration) (pre : List (Time × Event)) (x : Time × Event) :
    Prop :=
  match x.2 with
  | .served i _ w => Occurs (· = Event.rejectReq i) pre → w = rejected ResponseWriter.fresh
  | .rejectReq i => i < N
  | .waitStart d => d = wt ∧ ∀ i, i < N → Occurs (· = Event.rejectReq i) pre
  | .waitEnd => ∃ y ∈ pre, y.2 = Event.waitStart wt ∧ y.1 + wt ≤ x.1
  | .stopStart i => i < N ∧ Occurs (· = Event.waitEnd) pre
  | .cbStart j ctx =>
      j < M ∧ ctx = Context.WithTimeout Context.Background cbT x.1 ∧
        ∀ i, i < N → ∃ err, Occurs (· = Event.stopEnd i err) pre
  | .closeStart => ∀ j, j < M → Occurs (· = Event.cbEnd j) pre
  | _ => True

/-- Whether the event is the call of `stop` on server `i`. -/
def Event.isStopStart (i : Nat) : Event → Bool
  | .stopStart k => k == i
  | _ => false

/-- Whether the event is the call of callback `j`. -/
def Event.isCbStart (j : Nat) : Event → Bool
  | .cbStart k _ => k == j
  | _ => false

/-- Whether the event is the call of `app.close`. -/
def Event.isCloseStart : Event → Bool
  | .closeStart => true
  | _ => false

/-- Whether the event is the return of `app.close`. -/
def Event.isCloseEnd : Event → Bool
  | .closeEnd => true
  | _ => false

/-- The number of events of the trace that satisfy `p`. -/
def countEv (p : Event → Bool) (tr : List (Time × Event)) : Nat :=
  tr.countP (fun x => p x.2)

/-- 1 when goroutine `i` has made its call, 0 otherwise. -/
def startedAt {α : Type} (l : List (Goroutine α)) (i : Nat) : Nat :=
  match l[i]? with
  | some .ready => 0
  | some _ => 1
  | none => 0

/-- Whether the gate of server `i` is closed. -/
def Sys.rejecting (s : Sys) (i : Nat) : Bool :=
  match s.app.servers[i]? with
  | some srv => srv.mux.reject
  | none => false

/-- The same state with another `shutdownTimeout`. -/
def Sys.withShutdownTimeout (s : Sys) (d : Duration) : Sys :=
  { s with app := { s.app with shutdownTimeout := d } }

/-- The parts of the state no move changes. -/
def Sys.SameCfg (s s1 : Sys) : Prop :=
  s1.app.servers.length = s.app.servers.length ∧ s1.app.cbs = s.app.cbs ∧
    s1.app.waitTime = s.app.waitTime ∧ s1.app.cbTimeout = s.app.cbTimeout ∧
    s1.app.shutdownTimeout = s.app.shutdownTimeout ∧ s1.world = s.world ∧ s1.find = s.find

/-- The moves a goroutine still has to make. -/
def Goroutine.weight {α : Type} : Goroutine α → Nat
  | .ready => 2
  | .running _ => 1
  | .done => 0

/-- The moves the main goroutine still has to make. -/
def PC.todo (n : Nat) : PC → Nat
  | .select _ => n + 6
  | .rejecting k => (n - k) + 5
  | .sleeping _ => 4
  | .stopWait => 3
  | .cbWait => 2
  | .closing _ => 1
  | .terminated => 0

/-- The moves of the program that remain before `Run` returns. -/
def Sys.todo (s : Sys) : Nat :=
  s.pc.todo s.app.servers.length
    + (if s.pc.rank < 3 then 2 * s.app.servers.length else (s.stopG.map Goroutine.weight).sum)
    + (if s.pc.rank < 4 then 2 * s.app.cbs.length else (s.cbG.map Goroutine.weight).sum)

/-! ## Invariants of a run -/

/-- The goroutines and the wait group agree with the phase. -/
structure InvS (s : Sys) : Prop where
  stopNil : s.pc.rank < 3 → s.stopG = []
  stopLen : 3 ≤ s.pc.rank → s.stopG.length = s.app.servers.length
  stopDone : 3 < s.pc.rank → ∀ g ∈ s.stopG, g = Goroutine.done
  cbNil : s.pc.rank < 4 → s.cbG = []
  cbLen : 4 ≤ s.pc.rank → s.cbG.length = s.app.cbs.length
  cbDone : 4 < s.pc.rank → ∀ g ∈ s.cbG, g = Goroutine.done
  wgEq : s.wg = s.stopG.countP Goroutine.pending + s.cbG.countP Goroutine.pending

/-- The trace agrees with the state. -/
structure InvT (s : Sys) : Prop where
  rejPre : ∀ k, s.pc = PC.rejecting k → ∀ i, i < k → Occurs (· = Event.rejectReq i) s.trace
  rejAll : 2 ≤ s.pc.rank → ∀ i, i < s.app.servers.length →
    Occurs (· = Event.rejectReq i) s.trace
  slept : ∀ u, s.pc = PC.sleeping u →
    ∃ y ∈ s.trace, y.2 = Event.waitStart s.app.waitTime ∧ y.1 + s.app.waitTime = u
  waited : 3 ≤ s.pc.rank → Occurs (· = Event.waitEnd) s.trace
  stopped : ∀ i, s.stopG[i]? = some Goroutine.done →
    Occurs (· = Event.stopEnd i (s.world i).closeErr) s.trace
  called : ∀ j, s.cbG[j]? = some Goroutine.done → Occurs (· = Event.cbEnd j) s.trace
  gate : ∀ i srv, Occurs (· = Event.rejectReq i) s.trace → s.app.servers[i]? = some srv →
    srv.mux.reject = true
  phaseLe : ∀ y ∈ s.trace, y.2.phase ≤ s.pc.rank

/-- The trace is well formed. -/
structure InvH (s : Sys) : Prop where
  hist : Hist (Good s.app.servers.length s.app.cbs.length s.app.waitTime s.app.cbTimeout) s.trace
  phased : Phased s.trace

/-- The trace counts the calls made so far. -/
structure InvC (s : Sys) : Prop where
  cntStop : ∀ i, countEv (Event.isStopStart i) s.trace = startedAt s.stopG i
  cntCb : ∀ j, countEv (Event.isCbStart j) s.trace = startedAt s.cbG j
  cntClose : countEv Event.isCloseStart s.trace = if 5 ≤ s.pc.rank then 1 else 0
  cntCloseEnd : countEv Event.isCloseEnd s.trace = if 6 ≤ s.pc.rank then 1 else 0

/-- Everything that holds in every state of a run. -/
structure Inv (s : Sys) : Prop where
  toS : InvS s
  toT : InvT s
  toH : InvH s
  toC : InvC s

/-! ## The application of `main.go` and two schedules -/

/-- The routing used in the examples: the first route whose pattern is the
path of the request, and 404 when there is none. -/
def demoFind : Find := fun routes r =>
  match routes.find? (fun p => p.1 == r.path) with
  | some p => p.2
  | none => fun _ => [WCall.WriteHeader 404]

/-- The server `s1` of `main.go`. -/
def demoBusiness : Server :=
  (NewServer "business" "localhost:8080").Handle "/business/shutdown"
    (fun _ => [WCall.Write "hello world!"])

/-- The application of `main.go`. -/
def demoApp : App :=
  NewApp [demoBusiness, NewServer "admin" "localhost:8081"]
    [WithShutdownCallbacks [StoreCacheToDBCallBack],
      WithTimeCfg (30 * Second) (10 * Second) (3 * Second)]

/-- A network in which both listeners bind, drain in five nanoseconds, and
the first one fails to close. -/
def demoWorld : Nat → SrvWorld := fun i =>
  { bindErr := none, idleAfter := some 5,
    closeErr := if i = 0 then some (Err.other "close tcp: broken") else none }

/-- A request for the registered route. -/
def demoReq : Request := { method := "GET", host := "localhost:8080", path := "/business/shutdown" }

/-- A complete schedule of the example. -/
def demoSchedule : List Move :=
  [.start 0, .start 1, .request 0 demoReq, .signal, .main, .request 0 demoReq,
    .request 1 demoReq, .main, .main, .tick 10000000000, .main, .stopStart 1, .stopStart 0,
    .startRet 0, .tick 5, .stopEnd 0, .main, .stopEnd 1, .main, .cbStart 0,
    .tick 2000000000, .cbEnd 0, .main, .tick 1000000000, .main]

/-- A schedule for listeners that never drain: an hour after both `stop`
calls, the scheduler offers both returns and the main goroutine a step. -/
def stuckSchedule : List Move :=
  [.signal, .main, .main, .main, .tick 10000000000, .main, .stopStart 0, .stopStart 1,
    .tick 3600000000000, .stopEnd 0, .stopEnd 1, .main]

/-- A network in which the listeners bind and close without error but their
connections never become idle. -/
def stuckWorld : Nat → SrvWorld := fun _ =>
  { bindErr := none, idleAfter := none, closeErr := none }

/-! ## The request gate -/

theorem serverMux.ServeHTTP_reject (find : Find) (m : serverMux) (w : ResponseWriter)
    (r : Request) (h : m.reject = true) : m.ServeHTTP find w r = rejected w := by
  simp [serverMux.ServeHTTP, h, rejected, ResponseWriter.WriteHeader, ResponseWriter.Write,
    StatusServiceUnavailable]

theorem Server.apply_reject (s : Server) (op : ServerOp) (h : s.mux.reject = true) :
    (s.apply op).mux.reject = true := by
  cases op <;>
    simp [Server.apply, Server.Handle, Server.rejectReq, Server.start, Server.stop, h]

theorem Server.foldl_apply_reject (ops : List ServerOp) (s : Server)
    (h : s.mux.reject = true) : (ops.foldl Server.apply s).mux.reject = true := by
  induction ops generalizing s with
  | nil => simpa using h
  | cons op ops ih => exact ih _ (Server.apply_reject s op h)

/-! ## Case analysis on moves -/

/-- The steps of the main goroutine, by program counter. -/
theorem Sys.main_eq (s : Sys) : s.main =
    (match s.pc with
    | .select timeout =>
        if timeout ≤ s.now then some (s.emit [Event.log "超时退出"]).enterShutdown else none
    | .rejecting k =>
        match s.app.servers[k]? with
        | some srv =>
            some { (s.setServer k srv.rejectReq).emit [Event.rejectReq k] with
              pc := PC.rejecting (k + 1) }
        | none =>
            some { s.emit [Event.log "等待正在执行请求完结", Event.waitStart s.app.waitTime] with
              pc := PC.sleeping (s.now + s.app.waitTime) }
    | .sleeping upto =>
        if upto ≤ s.now then
          some { s.emit [Event.waitEnd, Event.log "停止所有服务"] with
            wg := s.wg + s.app.servers.length
            stopG := List.replicate s.app.servers.length Goroutine.ready
            pc := PC.stopWait }
        else none
    | .stopWait =>
        if s.wg = 0 then
          some { s.emit [Event.log "开始执行自定义回调"] with
            wg := s.wg + s.app.cbs.length
            cbG := List.replicate s.app.cbs.length Goroutine.ready
            pc := PC.cbWait }
        else none
    | .cbWait =>
        if s.wg = 0 then
          some { s.emit [Event.log "开始释放资源", Event.closeStart] with
            pc := PC.closing (s.now + Second) }
        else none
    | .closing upto =>
        if upto ≤ s.now then
          some { s.emit [Event.log "应用关闭", Event.closeEnd] with pc := PC.terminated }
        else none
    | .terminated => none) := by
  cases h : s.pc <;> simp only [Sys.main, Sys.shutdown, Sys.close, h]

/-- Case analysis on an enabled move: a property of the state after an enabled move
holds as soon as it holds after each transition of the program. -/
theorem Sys.step_elim {P : Sys → Prop} (s : Sys)
    (tick : ∀ d : Nat, P { s with now := s.now + d })
    (handle : ∀ i pattern handler srv, s.app.servers[i]? = some srv →
      P (s.setServer i (srv.Handle pattern handler)))
    (request : ∀ i r srv, s.app.servers[i]? = some srv → srv.srv.listening = true →
      P (s.emit [Event.served i r (srv.mux.ServeHTTP s.find ResponseWriter.fresh r)]))
    (startErr : ∀ i srv err, s.startG[i]? = some Goroutine.ready →
      s.app.servers[i]? = some srv → (srv.start (s.world i)).2 = some err →
      P { (s.setServer i (srv.start (s.world i)).1).emit [Event.log (startLog srv err)] with
          startG := s.startG.set i Goroutine.done })
    (startOk : ∀ i srv, s.startG[i]? = some Goroutine.ready →
      s.app.servers[i]? = some srv → (srv.start (s.world i)).2 = none →
      P { (s.setServer i (srv.start (s.world i)).1).emit [Event.listen i] with
          startG := s.startG.set i (Goroutine.running ()) })
    (startRet : ∀ i srv, s.startG[i]? = some (Goroutine.running ()) →
      s.app.servers[i]? = some srv → srv.srv.inShutdown = true →
      P { s.emit [Event.log (startLog srv Err.ErrServerClosed)] with
          startG := s.startG.set i Goroutine.done })
    (enter : ∀ msg timeout, s.pc = PC.select timeout →
      P (s.emit [Event.log msg]).enterShutdown)
    (reject : ∀ k srv, s.pc = PC.rejecting k → s.app.servers[k]? = some srv →
      P { (s.setServer k srv.rejectReq).emit [Event.rejectReq k] with
          pc := PC.rejecting (k + 1) })
    (waitStart : ∀ k, s.pc = PC.rejecting k → s.app.servers[k]? = none →
      P { s.emit [Event.log "等待正在执行请求完结", Event.waitStart s.app.waitTime] with
          pc := PC.sleeping (s.now + s.app.waitTime) })
    (waitEnd : ∀ upto, s.pc = PC.sleeping upto → upto ≤ s.now →
      P { s.emit [Event.waitEnd, Event.log "停止所有服务"] with
          wg := s.wg + s.app.servers.length
          stopG := List.replicate s.app.servers.length Goroutine.ready
          pc := PC.stopWait })
    (spawnCbs : s.pc = PC.stopWait → s.wg = 0 →
      P { s.emit [Event.log "开始执行自定义回调"] with
          wg := s.wg + s.app.cbs.length
          cbG := List.replicate s.app.cbs.length Goroutine.ready
          pc := PC.cbWait })
    (closeStart : s.pc = PC.cbWait → s.wg = 0 →
      P { s.emit [Event.log "开始释放资源", Event.closeStart] with
          pc := PC.closing (s.now + Second) })
    (closeEnd : ∀ upto, s.pc = PC.closing upto → upto ≤ s.now →
      P { s.emit [Event.log "应用关闭", Event.closeEnd] with pc := PC.terminated })
    (stopStart : ∀ i srv, s.stopG[i]? = some Goroutine.ready →
      s.app.servers[i]? = some srv →
      P { (s.setServer i (srv.stop (s.world i) s.now).1).emit
            [Event.stopStart i, Event.log srv.stopLog] with
          stopG := s.stopG.set i (Goroutine.running s.now) })
    (stopEnd : ∀ i srv since ret err, s.stopG[i]? = some (Goroutine.running since) →
      s.app.servers[i]? = some srv → (srv.stop (s.world i) since).2 = some (ret, err) →
      ret ≤ s.now →
      P { s.emit (Event.stopEnd i err :: stopFailLog srv err) with
          wg := s.wg - 1
          stopG := s.stopG.set i Goroutine.done })
    (cbStart : ∀ j, s.cbG[j]? = some Goroutine.ready →
      P { s.emit [Event.cbStart j (Context.WithTimeout Context.Background s.app.cbTimeout s.now)] with
          cbG := s.cbG.set j (Goroutine.running
            (Context.WithTimeout Context.Background s.app.cbTimeout s.now, s.now)) })
    (cbEnd : ∀ j c ctx since ret, s.cbG[j]? = some (Goroutine.running (ctx, since)) →
      s.app.cbs[j]? = some c → c ctx since = some ret → ret ≤ s.now →
      P { s.emit [Event.cbEnd j] with
          wg := s.wg - 1
          cbG := s.cbG.set j Goroutine.done })
    (m : Move) (s1 : Sys) (hs : s.step m = some s1) : P s1 := by
  cases m with
  | tick d =>
    simp only [Sys.step, Option.some.injEq] at hs
    exact hs ▸ tick d
  | Handle i p hd =>
    simp only [Sys.step] at hs
    split at hs
    · next srv hsrv =>
      simp only [Option.some.injEq] at hs
      exact hs ▸ handle i p hd srv hsrv
    · simp at hs
  | request i r =>
    simp only [Sys.step] at hs
    split at hs
    · next srv hsrv =>
      split at hs
      · next hl =>
        simp only [Option.some.injEq] at hs
        exact hs ▸ request i r srv hsrv hl
      · simp at hs
    · simp at hs
  | start i =>
    simp only [Sys.step] at hs
    split at hs
    · next srv hg hsrv =>
      split at hs
      · next err he =>
        simp only [Option.some.injEq] at hs
        exact hs ▸ startErr i srv err hg hsrv he
      · next he =>
        simp only [Option.some.injEq] at hs
        exact hs ▸ startOk i srv hg hsrv he
    · simp at hs
  | startRet i =>
    simp only [Sys.step] at hs
    split at hs
    · next u srv hg hsrv =>
      split at hs
      · next hl =>
        simp only [Option.some.injEq] at hs
        exact hs ▸ startRet i srv hg hsrv hl
      · simp at hs
    · simp at hs
  | signal =>
    simp only [Sys.step] at hs
    split at hs
    · next t hpc =>
      simp only [Option.some.injEq] at hs
      exact hs ▸ enter _ t hpc
    · simp at hs
  | main =>
    simp only [Sys.step, Sys.main_eq] at hs
    split at hs
    · next t hpc =>
      split at hs
      · simp only [Option.some.injEq] at hs
        exact hs ▸ enter _ t hpc
      · simp at hs
    · next k hpc =>
      split at hs
      · next srv hsrv =>
        simp only [Option.some.injEq] at hs
        exact hs ▸ reject k srv hpc hsrv
      · next hsrv =>
        simp only [Option.some.injEq] at hs
        exact hs ▸ waitStart k hpc hsrv
    · next u hpc =>
      split at hs
      · next hu =>
        simp only [Option.some.injEq] at hs
        exact hs ▸ waitEnd u hpc hu
      · simp at hs
    · next hpc =>
      split at hs
      · next hw =>
        simp only [Option.some.injEq] at hs
        exact hs ▸ spawnCbs hpc hw
      · simp at hs
    · next hpc =>
      split at hs
      · next hw =>
        simp only [Option.some.injEq] at hs
        exact hs ▸ closeStart hpc hw
      · simp at hs
    · next u hpc =>
      split at hs
      · next hu =>
        simp only [Option.some.injEq] at hs
        exact hs ▸ closeEnd u hpc hu
      · simp at hs
    · simp at hs
  | stopStart i =>
    simp only [Sys.step] at hs
    split at hs
    · next srv hg hsrv =>
      simp only [Option.some.injEq] at hs
      exact hs ▸ stopStart i srv hg hsrv
    · simp at hs
  | stopEnd i =>
    simp only [Sys.step] at hs
    split at hs
    · next since srv hg hsrv =>
      split at hs
      · next ret err hr =>
        split at hs
        · next hle =>
          simp only [Option.some.injEq] at hs
          exact hs ▸ stopEnd i srv since ret err hg hsrv hr hle
        · simp at hs
      · simp at hs
    · simp at hs
  | cbStart j =>
    simp only [Sys.step] at hs
    split at hs
    · next hg =>
      simp only [Option.some.injEq] at hs
      exact hs ▸ cbStart j hg
    · simp at hs
  | cbEnd j =>
    simp only [Sys.step] at hs
    split at hs
    · next ctx since c hg hc =>
      split at hs
      · next ret hr =>
        split at hs
        · next hle =>
          simp only [Option.some.injEq] at hs
          exact hs ▸ cbEnd j c ctx since ret hg hc hr hle
        · simp at hs
      · simp at hs
    · simp at hs

/-! ## Goroutines and the wait group -/

theorem countP_set_same {α : Type} (p : α → Bool) (l : List α) (i : Nat) (g a : α)
    (hg : l[i]? = some g) (hp : p a = p g) : (l.set i a).countP p = l.countP p := by
  induction l generalizing i with
  | nil => simp
  | cons x l ih =>
    cases i with
    | zero =>
      simp only [List.getElem?_cons_zero, Option.some.injEq] at hg
      subst hg
      simp [List.countP_cons, hp]
    | succ i =>
      simp only [List.getElem?_cons_succ] at hg
      simp [List.countP_cons, ih i hg]

theorem countP_set_drop {α : Type} (p : α → Bool) (l : List α) (i : Nat) (g a : α)
    (hg : l[i]? = some g) (hpg : p g = true) (hpa : p a = false) :
    (l.set i a).countP p + 1 = l.countP p := by
  induction l generalizing i with
  | nil => simp at hg
  | cons x l ih =>
    cases i with
    | zero =>
      simp only [List.getElem?_cons_zero, Option.some.injEq] at hg
      subst hg
      simp [List.countP_cons, hpg, hpa]
    | succ i =>
      simp only [List.getElem?_cons_succ] at hg
      have := ih i hg
      simp only [List.set_cons_succ, List.countP_cons]
      omega

theorem all_done_of_countP {α : Type} (l : List (Goroutine α))
    (h : l.countP Goroutine.pending = 0) : ∀ g ∈ l, g = Goroutine.done := by
  intro g hg
  rw [List.countP_eq_zero] at h
  have := h g hg
  cases g <;> simp_all [Goroutine.pending]

theorem all_done_set {α : Type} (l : List (Goroutine α)) (i : Nat) (a g : Goroutine α)
    (h : ∀ g ∈ l, g = Goroutine.done) (hg : l[i]? = some g) (hne : g ≠ Goroutine.done) :
    ∀ g ∈ l.set i a, g = Goroutine.done :=
  absurd (h g (List.getElem?_mem hg)) hne

theorem InvS.initS (app : App) (world : Nat → SrvWorld) (find : Find) (t0 : Time) :
    InvS (app.Run world find t0) := by
  constructor <;> simp [App.Run, PC.rank]

set_option maxHeartbeats 1000000 in
theorem InvS.step_stopNil {s s1 : Sys} {m : Move} (h : InvS s) (hs : s.step m = some s1) :
    s1.pc.rank < 3 → s1.stopG = [] := by
  obtain ⟨h1, h2, h3, h4, h5, h6, h7⟩ := h
  refine Sys.step_elim (P := fun s1 =>
      s1.pc.rank < 3 → s1.stopG = []) s
    ?tick ?handle ?request ?startErr ?startOk ?startRet ?enter ?reject ?waitStart
    ?waitEnd ?spawnCbs ?closeStart ?closeEnd ?stopStart ?stopEnd ?cbStart ?cbEnd m s1 hs
  all_goals clear hs
  all_goals intros
  all_goals simp only [Sys.emit, Sys.setServer, Sys.enterShutdown] at *
  all_goals first | assumption | simp_all [PC.rank]

set_option maxHeartbeats 1000000 in
theorem InvS.step_stopLen {s s1 : Sys} {m : Move} (h : InvS s) (hs : s.step m = some s1) :
    3 ≤ s1.pc.rank → s1.stopG.length = s1.app.servers.length := by
  obtain ⟨h1, h2, h3, h4, h5, h6, h7⟩ := h
  refine Sys.step_elim (P := fun s1 =>
      3 ≤ s1.pc.rank → s1.stopG.length = s1.app.servers.length) s
    ?tick ?handle ?request ?startErr ?startOk ?startRet ?enter ?reject ?waitStart
    ?waitEnd ?spawnCbs ?closeStart ?closeEnd ?stopStart ?stopEnd ?cbStart ?cbEnd m s1 hs
  all_goals clear hs
  all_goals intros
  all_goals simp only [Sys.emit, Sys.setServer, Sys.enterShutdown] at *
  all_goals first | assumption | simp_all [PC.rank]

set_option maxHeartbeats 1000000 in
theorem InvS.step_stopDone {s s1 : Sys} {m : Move} (h : InvS s) (hs : s.step m = some s1) :
    3 < s1.pc.rank → ∀ g ∈ s1.stopG, g = Goroutine.done := by
  obtain ⟨h1, h2, h3, h4, h5, h6, h7⟩ := h
  refine Sys.step_elim (P := fun s1 =>
      3 < s1.pc.rank → ∀ g ∈ s1.stopG, g = Goroutine.done) s
    ?tick ?handle ?request ?startErr ?startOk ?startRet ?enter ?reject ?waitStart
    ?waitEnd ?spawnCbs ?closeStart ?closeEnd ?stopStart ?stopEnd ?cbStart ?cbEnd m s1 hs
  all_goals clear hs
  case spawnCbs =>
    intro hpc hw _
    exact all_done_of_countP s.stopG (by omega)
  case closeStart => intro hpc hw _; exact h3 (by simp [hpc, PC.rank])
  case closeEnd => intro u hpc hw _; exact h3 (by simp [hpc, PC.rank])
  case stopStart => intro i srv hg _ hr; exact all_done_set _ _ _ _ (h3 hr) hg (by simp)
  case stopEnd =>
    intro i srv since ret err hg _ _ _ hr
    exact all_done_set _ _ _ _ (h3 hr) hg (by simp)
  all_goals intros
  all_goals simp only [Sys.emit, Sys.setServer, Sys.enterShutdown] at *
  all_goals first | assumption | simp_all [PC.rank]

set_option maxHeartbeats 1000000 in
theorem InvS.step_cbNil {s s1 : Sys} {m : Move} (h : InvS s) (hs : s.step m = some s1) :
    s1.pc.rank < 4 → s1.cbG = [] := by
  obtain ⟨h1, h2, h3, h4, h5, h6, h7⟩ := h
  refine Sys.step_elim (P := fun s1 =>
      s1.pc.rank < 4 → s1.cbG = []) s
    ?tick ?handle ?request ?startErr ?startOk ?startRet ?enter ?reject ?waitStart
    ?waitEnd ?spawnCbs ?closeStart ?closeEnd ?stopStart ?stopEnd ?cbStart ?cbEnd m s1 hs
  all_goals clear hs
  all_goals intros
  all_goals simp only [Sys.emit, Sys.setServer, Sys.enterShutdown] at *
  all_goals first | assumption | simp_all [PC.rank]

set_option maxHeartbeats 1000000 in
theorem InvS.step_cbLen {s s1 : Sys} {m : Move} (h : InvS s) (hs : s.step m = some s1) :
    4 ≤ s1.pc.rank → s1.cbG.length = s1.app.cbs.length := by
  obtain ⟨h1, h2, h3, h4, h5, h6, h7⟩ := h
  refine Sys.step_elim (P := fun s1 =>
      4 ≤ s1.pc.rank → s1.cbG.length = s1.app.cbs.length) s
    ?tick ?handle ?request ?startErr ?startOk ?startRet ?enter ?reject ?waitStart
    ?waitEnd ?spawnCbs ?closeStart ?closeEnd ?stopStart ?stopEnd ?cbStart ?cbEnd m s1 hs
  all_goals clear hs
  all_goals intros
  all_goals simp only [Sys.emit, Sys.setServer, Sys.enterShutdown] at *
  all_goals first | assumption | simp_all [PC.rank]

set_option maxHeartbeats 1000000 in
theorem InvS.step_cbDone {s s1 : Sys} {m : Move} (h : InvS s) (hs : s.step m = some s1) :
    4 < s1.pc.rank → ∀ g ∈ s1.cbG, g = Goroutine.done := by
  obtain ⟨h1, h2, h3, h4, h5, h6, h7⟩ := h
  refine Sys.step_elim (P := fun s1 =>
      4 < s1.pc.rank → ∀ g ∈ s1.cbG, g = Goroutine.done) s
    ?tick ?handle ?request ?startErr ?startOk ?startRet ?enter ?reject ?waitStart
    ?waitEnd ?spawnCbs ?closeStart ?closeEnd ?stopStart ?stopEnd ?cbStart ?cbEnd m s1 hs
  all_goals clear hs
  case closeStart => intro hpc hw _; exact all_done_of_countP s.cbG (by omega)
  case closeEnd => intro u hpc hw _; exact h6 (by simp [hpc, PC.rank])
  case cbStart => intro j hg hr; exact all_done_set _ _ _ _ (h6 hr) hg (by simp)
  case cbEnd =>
    intro j c ctx since ret hg _ _ _ hr
    exact all_done_set _ _ _ _ (h6 hr) hg (by simp)
  all_goals intros
  all_goals simp only [Sys.emit, Sys.setServer, Sys.enterShutdown] at *
  all_goals first | assumption | simp_all [PC.rank]

set_option maxHeartbeats 1000000 in
theorem InvS.step_wgEq {s s1 : Sys} {m : Move} (h : InvS s) (hs : s.step m = some s1) :
    s1.wg = s1.stopG.countP Goroutine.pending + s1.cbG.countP Goroutine.pending := by
  obtain ⟨h1, h2, h3, h4, h5, h6, h7⟩ := h
  refine Sys.step_elim (P := fun s1 =>
      s1.wg = s1.stopG.countP Goroutine.pending + s1.cbG.countP Goroutine.pending) s
    ?tick ?handle ?request ?startErr ?startOk ?startRet ?enter ?reject ?waitStart
    ?waitEnd ?spawnCbs ?closeStart ?closeEnd ?stopStart ?stopEnd ?cbStart ?cbEnd m s1 hs
  all_goals clear hs
  case waitEnd =>
    intro u hpc _
    have e1 := h1 (by simp [hpc, PC.rank])
    have e4 := h4 (by simp [hpc, PC.rank])
    simp [Sys.emit, h7, e1, e4, List.countP_replicate, Goroutine.pending]
  case spawnCbs =>
    intro hpc hw
    have : List.countP Goroutine.pending s.stopG = 0 := by omega
    simp [Sys.emit, hw, this, List.countP_replicate, Goroutine.pending]
  case stopStart =>
    intro i srv hg _
    simp only [Sys.emit, Sys.setServer]
    rw [countP_set_same _ _ _ _ _ hg (by simp [Goroutine.pending])]
    exact h7
  case stopEnd =>
    intro i srv since ret err hg _ _ _
    have := countP_set_drop Goroutine.pending _ _ _ Goroutine.done hg
      (by simp [Goroutine.pending]) (by simp [Goroutine.pending])
    simp only [Sys.emit]
    omega
  case cbStart =>
    intro j hg
    simp only [Sys.emit]
    rw [countP_set_same _ _ _ _ _ hg (by simp [Goroutine.pending])]
    exact h7
  case cbEnd =>
    intro j c ctx since ret hg _ _ _
    have := countP_set_drop Goroutine.pending _ _ _ Goroutine.done hg
      (by simp [Goroutine.pending]) (by simp [Goroutine.pending])
    simp only [Sys.emit]
    omega
  all_goals intros
  all_goals simp only [Sys.emit, Sys.setServer, Sys.enterShutdown] at *
  all_goals assumption

theorem InvS.stepS {s s1 : Sys} {m : Move} (h : InvS s) (hs : s.step m = some s1) : InvS s1 :=
  ⟨h.step_stopNil hs, h.step_stopLen hs, h.step_stopDone hs, h.step_cbNil hs,
    h.step_cbLen hs, h.step_cbDone hs, h.step_wgEq hs⟩

/-! ## Traces -/

@[simp] theorem Occurs_nil (a : Event → Prop) : Occurs a [] ↔ False := by
  simp [Occurs]

@[simp] theorem Occurs_cons (a : Event → Prop) (x : Time × Event) (tr : List (Time × Event)) :
    Occurs a (x :: tr) ↔ a x.2 ∨ Occurs a tr := by
  simp [Occurs]

@[simp] theorem Occurs_append (a : Event → Prop) (tr es : List (Time × Event)) :
    Occurs a (tr ++ es) ↔ Occurs a tr ∨ Occurs a es := by
  simp only [Occurs, List.mem_append]
  constructor
  · rintro ⟨y, hy | hy, ha⟩
    · exact Or.inl ⟨y, hy, ha⟩
    · exact Or.inr ⟨y, hy, ha⟩
  · rintro (⟨y, hy, ha⟩ | ⟨y, hy, ha⟩)
    · exact ⟨y, Or.inl hy, ha⟩
    · exact ⟨y, Or.inr hy, ha⟩

theorem Hist_nil (Q : List (Time × Event) → Time × Event → Prop) : Hist Q [] := by
  intro pre x post h
  simp at h

theorem Hist_snoc (Q : List (Time × Event) → Time × Event → Prop) (tr : List (Time × Event))
    (x : Time × Event) : Hist Q (tr ++ [x]) ↔ Hist Q tr ∧ Q tr x := by
  constructor
  · intro h
    refine ⟨?_, h tr x [] rfl⟩
    intro pre y post e
    exact h pre y (post ++ [x]) (by simp [e])
  · rintro ⟨h, hx⟩ pre y post e
    rcases List.eq_nil_or_concat post with rfl | ⟨post1, z, rfl⟩
    · have e1 : tr ++ [x] = pre ++ [y] := e
      have := List.append_inj' e1 rfl
      obtain ⟨rfl, e2⟩ := this
      simp only [List.cons.injEq, and_true] at e2
      subst e2
      exact hx
    · have e1 : tr ++ [x] = (pre ++ y :: post1) ++ [z] := by
        simpa [List.concat_eq_append] using e
      have := List.append_inj' e1 rfl
      exact h pre y post1 this.1

theorem Hist_append (Q : List (Time × Event) → Time × Event → Prop)
    (tr es : List (Time × Event)) : Hist Q (tr ++ es) ↔ Hist Q tr ∧ HistFrom Q tr es := by
  induction es generalizing tr with
  | nil => simp [HistFrom]
  | cons x es ih =>
    have e : tr ++ x :: es = (tr ++ [x]) ++ es := by simp
    rw [e, ih, Hist_snoc]
    simp [HistFrom, and_assoc]

/-! ## The trace agrees with the state -/

theorem Occurs_mono {a : Event → Prop} {tr : List (Time × Event)} (es : List (Time × Event))
    (h : Occurs a tr) : Occurs a (tr ++ es) :=
  (Occurs_append a tr es).2 (Or.inl h)

theorem InvS.rank_stop {s : Sys} (h : InvS s) {i : Nat} {g : Goroutine Time}
    (hg : s.stopG[i]? = some g) (hne : g ≠ Goroutine.done) : s.pc.rank = 3 := by
  have h1 : ¬ s.pc.rank < 3 := fun hlt => by
    have := h.stopNil hlt
    simp [this] at hg
  have h2 : ¬ 3 < s.pc.rank := fun hlt => hne (h.stopDone hlt g (List.getElem?_mem hg))
  omega

theorem InvS.rank_cb {s : Sys} (h : InvS s) {j : Nat} {g : Goroutine (Context × Time)}
    (hg : s.cbG[j]? = some g) (hne : g ≠ Goroutine.done) : s.pc.rank = 4 := by
  have h1 : ¬ s.pc.rank < 4 := fun hlt => by
    have := h.cbNil hlt
    simp [this] at hg
  have h2 : ¬ 4 < s.pc.rank := fun hlt => hne (h.cbDone hlt g (List.getElem?_mem hg))
  omega

theorem InvT.step_rejPre {s s1 : Sys} {m : Move} (h : InvT s) (hs : s.step m = some s1) :
    ∀ k, s1.pc = PC.rejecting k → ∀ i, i < k → Occurs (· = Event.rejectReq i) s1.trace := by
  refine Sys.step_elim (P := fun s1 =>
      ∀ k, s1.pc = PC.rejecting k → ∀ i, i < k → Occurs (· = Event.rejectReq i) s1.trace) s
    ?tick ?handle ?request ?startErr ?startOk ?startRet ?enter ?reject ?waitStart
    ?waitEnd ?spawnCbs ?closeStart ?closeEnd ?stopStart ?stopEnd ?cbStart ?cbEnd m s1 hs
  all_goals clear hs
  case reject =>
    intro k srv hpc _ k1 hk1 i hi
    simp only [Sys.emit, Sys.setServer, PC.rejecting.injEq] at hk1 ⊢
    subst hk1
    rcases Nat.lt_succ_iff_lt_or_eq.1 hi with hlt | rfl
    · exact Occurs_mono _ (h.rejPre k hpc i hlt)
    · simp
  all_goals intros
  all_goals simp only [Sys.emit, Sys.setServer, Sys.enterShutdown, List.map_cons, List.map_nil]
  all_goals first
    | exact h.rejPre
    | exact fun k hk i hi => Occurs_mono _ (h.rejPre k hk i hi)
    | simp

theorem InvT.step_rejAll {s s1 : Sys} {m : Move} (h : InvT s) (hs : s.step m = some s1) :
    2 ≤ s1.pc.rank → ∀ i, i < s1.app.servers.length →
      Occurs (· = Event.rejectReq i) s1.trace := by
  refine Sys.step_elim (P := fun s1 =>
      2 ≤ s1.pc.rank → ∀ i, i < s1.app.servers.length →
        Occurs (· = Event.rejectReq i) s1.trace) s
    ?tick ?handle ?request ?startErr ?startOk ?startRet ?enter ?reject ?waitStart
    ?waitEnd ?spawnCbs ?closeStart ?closeEnd ?stopStart ?stopEnd ?cbStart ?cbEnd m s1 hs
  all_goals clear hs
  case waitStart =>
    intro k hpc hk
    simp only [Sys.emit]
    intro _ i hi
    have hki : i < k := by
      have := List.getElem?_eq_none_iff.1 hk
      omega
    exact Occurs_mono _ (h.rejPre k hpc i hki)
  case waitEnd =>
    intro u hpc _ _ i hi
    exact Occurs_mono _ (h.rejAll (by simp [hpc, PC.rank]) i hi)
  case spawnCbs =>
    intro hpc _ _ i hi
    exact Occurs_mono _ (h.rejAll (by simp [hpc, PC.rank]) i hi)
  case closeStart =>
    intro hpc _ _ i hi
    exact Occurs_mono _ (h.rejAll (by simp [hpc, PC.rank]) i hi)
  case closeEnd =>
    intro u hpc _ _ i hi
    exact Occurs_mono _ (h.rejAll (by simp [hpc, PC.rank]) i hi)
  all_goals intros
  all_goals simp only [Sys.emit, Sys.setServer, Sys.enterShutdown, List.map_cons, List.map_nil,
    List.length_set]
  all_goals first
    | exact h.rejAll
    | exact fun hr i hi => Occurs_mono _ (h.rejAll hr i hi)
    | simp [PC.rank]

theorem InvT.step_slept {s s1 : Sys} {m : Move} (h : InvT s) (hs : s.step m = some s1) :
    ∀ u, s1.pc = PC.sleeping u →
      ∃ y ∈ s1.trace, y.2 = Event.waitStart s1.app.waitTime ∧ y.1 + s1.app.waitTime = u := by
  refine Sys.step_elim (P := fun s1 =>
      ∀ u, s1.pc = PC.sleeping u →
        ∃ y ∈ s1.trace, y.2 = Event.waitStart s1.app.waitTime ∧ y.1 + s1.app.waitTime = u) s
    ?tick ?handle ?request ?startErr ?startOk ?startRet ?enter ?reject ?waitStart
    ?waitEnd ?spawnCbs ?closeStart ?closeEnd ?stopStart ?stopEnd ?cbStart ?cbEnd m s1 hs
  all_goals clear hs
  case waitStart =>
    intro k hpc hk
    simp only [Sys.emit, PC.sleeping.injEq]
    intro u hu
    exact ⟨(s.now, Event.waitStart s.app.waitTime), by simp, rfl, hu⟩
  all_goals intros
  all_goals simp only [Sys.emit, Sys.setServer, Sys.enterShutdown, List.map_cons, List.map_nil]
  all_goals first
    | exact h.slept
    | exact fun u hu => (h.slept u hu).imp fun y hy => ⟨List.mem_append_left _ hy.1, hy.2⟩
    | simp

theorem InvT.step_waited {s s1 : Sys} {m : Move} (h : InvT s) (hs : s.step m = some s1) :
    3 ≤ s1.pc.rank → Occurs (· = Event.waitEnd) s1.trace := by
  refine Sys.step_elim (P := fun s1 => 3 ≤ s1.pc.rank → Occurs (· = Event.waitEnd) s1.trace) s
    ?tick ?handle ?request ?startErr ?startOk ?startRet ?enter ?reject ?waitStart
    ?waitEnd ?spawnCbs ?closeStart ?closeEnd ?stopStart ?stopEnd ?cbStart ?cbEnd m s1 hs
  all_goals clear hs
  case waitEnd =>
    intro u hpc _
    simp [Sys.emit]
  case spawnCbs =>
    intro hpc _ _
    exact Occurs_mono _ (h.waited (by simp [hpc, PC.rank]))
  case closeStart =>
    intro hpc _ _
    exact Occurs_mono _ (h.waited (by simp [hpc, PC.rank]))
  case closeEnd =>
    intro u hpc _ _
    exact Occurs_mono _ (h.waited (by simp [hpc, PC.rank]))
  all_goals intros
  all_goals simp only [Sys.emit, Sys.setServer, Sys.enterShutdown, List.map_cons, List.map_nil]
  all_goals first
    | exact h.waited
    | exact fun hr => Occurs_mono _ (h.waited hr)
    | simp [PC.rank]

theorem Server.stop_some {srv : Server} {wd : SrvWorld} {since ret : Time} {err : Option Err}
    (h : (srv.stop wd since).2 = some (ret, err)) :
    err = wd.closeErr ∧ ∃ d : Nat, wd.idleAfter = some d ∧ ret = since + d := by
  simp only [Server.stop, HttpServer.Shutdown, Context.Background] at h
  cases hd : wd.idleAfter with
  | none => simp [hd] at h
  | some d =>
    simp only [hd, Option.some.injEq, Prod.mk.injEq] at h
    exact ⟨h.2.symm, d, rfl, h.1.symm⟩

theorem InvT.step_stopped {s s1 : Sys} {m : Move} (h : InvT s) (hs : s.step m = some s1) :
    ∀ i, s1.stopG[i]? = some Goroutine.done →
      Occurs (· = Event.stopEnd i (s1.world i).closeErr) s1.trace := by
  refine Sys.step_elim (P := fun s1 =>
      ∀ i, s1.stopG[i]? = some Goroutine.done →
        Occurs (· = Event.stopEnd i (s1.world i).closeErr) s1.trace) s
    ?tick ?handle ?request ?startErr ?startOk ?startRet ?enter ?reject ?waitStart
    ?waitEnd ?spawnCbs ?closeStart ?closeEnd ?stopStart ?stopEnd ?cbStart ?cbEnd m s1 hs
  all_goals clear hs
  case waitEnd =>
    intro u hpc _ i hi
    simp [List.getElem?_replicate] at hi
  case stopStart =>
    intro i srv hg _ i1 hi1
    simp only [Sys.emit, Sys.setServer] at hi1 ⊢
    rw [List.getElem?_set] at hi1
    split at hi1
    · split at hi1 <;> simp at hi1
    · exact Occurs_mono _ (h.stopped i1 hi1)
  case stopEnd =>
    intro i srv since ret err hg _ hr _ i1 hi1
    simp only [Sys.emit] at hi1 ⊢
    rw [List.getElem?_set] at hi1
    split at hi1
    · next e =>
      subst e
      simp [(Server.stop_some hr).1]
    · exact Occurs_mono _ (h.stopped i1 hi1)
  all_goals intros
  all_goals simp only [Sys.emit, Sys.setServer, Sys.enterShutdown, List.map_cons, List.map_nil]
  all_goals first
    | exact h.stopped
    | exact fun i hi => Occurs_mono _ (h.stopped i hi)
    | exact fun i hi => Occurs_mono _ (Occurs_mono _ (h.stopped i hi))

theorem InvT.step_called {s s1 : Sys} {m : Move} (h : InvT s) (hs : s.step m = some s1) :
    ∀ j, s1.cbG[j]? = some Goroutine.done → Occurs (· = Event.cbEnd j) s1.trace := by
  refine Sys.step_elim (P := fun s1 =>
      ∀ j, s1.cbG[j]? = some Goroutine.done → Occurs (· = Event.cbEnd j) s1.trace) s
    ?tick ?handle ?request ?startErr ?startOk ?startRet ?enter ?reject ?waitStart
    ?waitEnd ?spawnCbs ?closeStart ?closeEnd ?stopStart ?stopEnd ?cbStart ?cbEnd m s1 hs
  all_goals clear hs
  case spawnCbs =>
    intro hpc _ j hj
    simp [List.getElem?_replicate] at hj
  case cbStart =>
    intro j hg j1 hj1
    simp only [Sys.emit] at hj1 ⊢
    rw [List.getElem?_set] at hj1
    split at hj1
    · split at hj1 <;> simp at hj1
    · exact Occurs_mono _ (h.called j1 hj1)
  case cbEnd =>
    intro j c ctx since ret hg _ _ _ j1 hj1
    simp only [Sys.emit] at hj1 ⊢
    rw [List.getElem?_set] at hj1
    split at hj1
    · next e =>
      subst e
      simp
    · exact Occurs_mono _ (h.called j1 hj1)
  all_goals intros
  all_goals simp only [Sys.emit, Sys.setServer, Sys.enterShutdown, List.map_cons, List.map_nil]
  all_goals first
    | exact h.called
    | exact fun j hj => Occurs_mono _ (h.called j hj)
    | exact fun j hj => Occurs_mono _ (Occurs_mono _ (h.called j hj))

theorem gate_set {l : List Server} {occ : Nat → Prop} {i0 : Nat} {srv0 v : Server}
    (h : ∀ i srv, occ i → l[i]? = some srv → srv.mux.reject = true)
    (h0 : l[i0]? = some srv0) (hv : srv0.mux.reject = true → v.mux.reject = true) :
    ∀ i srv, occ i → (l.set i0 v)[i]? = some srv → srv.mux.reject = true := by
  intro i srv ho hi
  rw [List.getElem?_set] at hi
  split at hi
  · next e =>
    subst e
    split at hi
    · simp only [Option.some.injEq] at hi
      subst hi
      exact hv (h i0 srv0 ho h0)
    · simp at hi
  · exact h i srv ho hi

theorem InvT.step_gate {s s1 : Sys} {m : Move} (h : InvT s) (hs : s.step m = some s1) :
    ∀ i srv, Occurs (· = Event.rejectReq i) s1.trace → s1.app.servers[i]? = some srv →
      srv.mux.reject = true := by
  refine Sys.step_elim (P := fun s1 =>
      ∀ i srv, Occurs (· = Event.rejectReq i) s1.trace → s1.app.servers[i]? = some srv →
        srv.mux.reject = true) s
    ?tick ?handle ?request ?startErr ?startOk ?startRet ?enter ?reject ?waitStart
    ?waitEnd ?spawnCbs ?closeStart ?closeEnd ?stopStart ?stopEnd ?cbStart ?cbEnd m s1 hs
  all_goals clear hs
  case handle =>
    intro i0 p hd srv0 h0
    exact gate_set h.gate h0 (fun hr => by simpa [Server.Handle] using hr)
  case startErr =>
    intro i0 srv0 err _ h0 _
    simp only [Sys.emit, Sys.setServer, List.map_cons, List.map_nil, Occurs_append, Occurs_cons,
      Occurs_nil, or_false, reduceCtorEq]
    exact gate_set h.gate h0 (fun hr => by simpa [Server.start] using hr)
  case startOk =>
    intro i0 srv0 _ h0 _
    simp only [Sys.emit, Sys.setServer, List.map_cons, List.map_nil, Occurs_append, Occurs_cons,
      Occurs_nil, or_false, reduceCtorEq]
    exact gate_set h.gate h0 (fun hr => by simpa [Server.start] using hr)
  case stopStart =>
    intro i0 srv0 _ h0
    simp only [Sys.emit, Sys.setServer, List.map_cons, List.map_nil, Occurs_append, Occurs_cons,
      Occurs_nil, or_false, reduceCtorEq]
    exact gate_set h.gate h0 (fun hr => by simpa [Server.stop] using hr)
  case reject =>
    intro k srv0 hpc h0 i srv ho hi
    simp only [Sys.emit, Sys.setServer, List.map_cons, List.map_nil, Occurs_append, Occurs_cons,
      Occurs_nil, or_false, Event.rejectReq.injEq] at ho hi
    rw [List.getElem?_set] at hi
    split at hi
    · split at hi
      · simp only [Option.some.injEq] at hi
        subst hi
        rfl
      · simp at hi
    · next hne =>
      rcases ho with ho | ho
      · exact h.gate i srv ho hi
      · exact absurd ho hne
  case stopEnd =>
    intro i0 srv0 since ret err _ _ _ _
    cases err <;>
      simpa only [Sys.emit, stopFailLog, List.map_cons, List.map_nil, Occurs_append,
        Occurs_cons, Occurs_nil, or_false, reduceCtorEq] using h.gate
  all_goals intros
  all_goals simp only [Sys.emit, Sys.setServer, Sys.enterShutdown, List.map_cons, List.map_nil,
    Occurs_append, Occurs_cons, Occurs_nil, or_false, reduceCtorEq]
  all_goals exact h.gate

theorem phaseLe_append {tr : List (Time × Event)} {r q : Nat} (t : Time) (es : List Event)
    (h : ∀ y ∈ tr, y.2.phase ≤ r) (hr : r ≤ q) (hes : ∀ e ∈ es, e.phase ≤ q) :
    ∀ y ∈ tr ++ es.map (fun e => (t, e)), y.2.phase ≤ q := by
  intro y hy
  rcases List.mem_append.1 hy with hy | hy
  · exact le_trans (h y hy) hr
  · obtain ⟨e, he, rfl⟩ := List.mem_map.1 hy
    exact hes e he

theorem InvT.step_phaseLe {s s1 : Sys} {m : Move} (hS : InvS s) (h : InvT s)
    (hs : s.step m = some s1) : ∀ y ∈ s1.trace, y.2.phase ≤ s1.pc.rank := by
  refine Sys.step_elim (P := fun s1 => ∀ y ∈ s1.trace, y.2.phase ≤ s1.pc.rank) s
    ?tick ?handle ?request ?startErr ?startOk ?startRet ?enter ?reject ?waitStart
    ?waitEnd ?spawnCbs ?closeStart ?closeEnd ?stopStart ?stopEnd ?cbStart ?cbEnd m s1 hs
  all_goals clear hs
  case tick => intro d; exact h.phaseLe
  case handle => intro i p hd srv _; exact h.phaseLe
  case enter =>
    intro msg t hpc
    exact phaseLe_append _ _
      (phaseLe_append (q := 1) _ _ h.phaseLe (by simp [hpc, PC.rank]) (by simp [Event.phase]))
      (le_refl _) (by simp [Event.phase])
  case reject =>
    intro k srv hpc _
    exact phaseLe_append _ _ h.phaseLe (by simp [hpc, PC.rank]) (by simp [Event.phase, PC.rank])
  case waitStart =>
    intro k hpc _
    exact phaseLe_append _ _ h.phaseLe (by simp [hpc, PC.rank]) (by simp [Event.phase, PC.rank])
  case waitEnd =>
    intro u hpc _
    exact phaseLe_append _ _ h.phaseLe (by simp [hpc, PC.rank]) (by simp [Event.phase, PC.rank])
  case spawnCbs =>
    intro hpc _
    exact phaseLe_append _ _ h.phaseLe (by simp [hpc, PC.rank]) (by simp [Event.phase, PC.rank])
  case closeStart =>
    intro hpc _
    exact phaseLe_append _ _ h.phaseLe (by simp [hpc, PC.rank]) (by simp [Event.phase, PC.rank])
  case closeEnd =>
    intro u hpc _
    exact phaseLe_append _ _ h.phaseLe (by simp [hpc, PC.rank]) (by simp [Event.phase, PC.rank])
  case stopStart =>
    intro i srv hg _
    have hr := hS.rank_stop hg (by simp)
    exact phaseLe_append _ _ h.phaseLe (le_refl _) (by simp [Event.phase, Sys.setServer, Sys.emit, hr])
  case stopEnd =>
    intro i srv since ret err hg _ _ _
    have hr := hS.rank_stop hg (by simp)
    exact phaseLe_append _ _ h.phaseLe (le_refl _)
      (by cases err <;> simp [Event.phase, stopFailLog, Sys.emit, hr])
  case cbStart =>
    intro j hg
    have hr := hS.rank_cb hg (by simp)
    exact phaseLe_append _ _ h.phaseLe (le_refl _) (by simp [Event.phase, Sys.emit, hr])
  case cbEnd =>
    intro j c ctx since ret hg _ _ _
    have hr := hS.rank_cb hg (by simp)
    exact phaseLe_append _ _ h.phaseLe (le_refl _) (by simp [Event.phase, Sys.emit, hr])
  all_goals intros
  all_goals exact phaseLe_append _ _ h.phaseLe (le_refl _) (by simp [Event.phase])

theorem InvT.initT (app : App) (world : Nat → SrvWorld) (find : Find) (t0 : Time) :
    InvT (app.Run world find t0) := by
  constructor <;> simp [App.Run, PC.rank]

theorem InvT.stepT {s s1 : Sys} {m : Move} (hS : InvS s) (h : InvT s)
    (hs : s.step m = some s1) : InvT s1 :=
  ⟨h.step_rejPre hs, h.step_rejAll hs, h.step_slept hs, h.step_waited hs, h.step_stopped hs,
    h.step_called hs, h.step_gate hs, h.step_phaseLe hS hs⟩

/-! ## The trace is well formed -/

theorem Phased_append {tr : List (Time × Event)} {r : Nat} (t : Time) (es : List Event)
    (h : Phased tr) (hle : ∀ y ∈ tr, y.2.phase ≤ r)
    (hes : ∀ e ∈ es, e.phase ≠ 0 → r ≤ e.phase)
    (hp : es.Pairwise (fun a b => b.phase ≠ 0 → a.phase ≤ b.phase)) :
    Phased (tr ++ es.map (fun e => (t, e))) := by
  refine List.pairwise_append.2 ⟨h, ?_, ?_⟩
  · exact (List.pairwise_map).2 hp
  · intro x hx y hy hne
    obtain ⟨e, he, rfl⟩ := List.mem_map.1 hy
    exact le_trans (hle x hx) (hes e he hne)

theorem InvH.step_phased {s s1 : Sys} {m : Move} (hS : InvS s) (hT : InvT s) (h : InvH s)
    (hs : s.step m = some s1) : Phased s1.trace := by
  refine Sys.step_elim (P := fun s1 => Phased s1.trace) s
    ?tick ?handle ?request ?startErr ?startOk ?startRet ?enter ?reject ?waitStart
    ?waitEnd ?spawnCbs ?closeStart ?closeEnd ?stopStart ?stopEnd ?cbStart ?cbEnd m s1 hs
  all_goals clear hs
  case tick => intro d; exact h.phased
  case handle => intro i p hd srv _; exact h.phased
  case enter =>
    intro msg t hpc
    exact Phased_append _ _
      (Phased_append _ _ h.phased hT.phaseLe (by simp [Event.phase]) (by simp))
      (phaseLe_append (q := 0) _ _ hT.phaseLe (by simp [hpc, PC.rank]) (by simp [Event.phase]))
      (by simp [Event.phase]) (by simp)
  case reject =>
    intro k srv hpc _
    exact Phased_append _ _ h.phased hT.phaseLe (by simp [Event.phase, hpc, PC.rank]) (by simp)
  case waitStart =>
    intro k hpc _
    exact Phased_append _ _ h.phased hT.phaseLe (by simp [Event.phase, hpc, PC.rank])
      (by simp [Event.phase])
  case waitEnd =>
    intro u hpc _
    exact Phased_append _ _ h.phased hT.phaseLe (by simp [Event.phase, hpc, PC.rank])
      (by simp [Event.phase])
  case spawnCbs =>
    intro hpc _
    exact Phased_append _ _ h.phased hT.phaseLe (by simp [Event.phase, hpc, PC.rank]) (by simp)
  case closeStart =>
    intro hpc _
    exact Phased_append _ _ h.phased hT.phaseLe (by simp [Event.phase, hpc, PC.rank])
      (by simp [Event.phase])
  case closeEnd =>
    intro u hpc _
    exact Phased_append _ _ h.phased hT.phaseLe (by simp [Event.phase, hpc, PC.rank])
      (by simp [Event.phase])
  case stopStart =>
    intro i srv hg _
    have hr := hS.rank_stop hg (by simp)
    exact Phased_append _ _ h.phased hT.phaseLe (by simp [Event.phase, hr])
      (by simp [Event.phase])
  case stopEnd =>
    intro i srv since ret err hg _ _ _
    have hr := hS.rank_stop hg (by simp)
    exact Phased_append _ _ h.phased hT.phaseLe
      (by cases err <;> simp [Event.phase, stopFailLog, hr])
      (by cases err <;> simp [Event.phase, stopFailLog])
  case cbStart =>
    intro j hg
    have hr := hS.rank_cb hg (by simp)
    exact Phased_append _ _ h.phased hT.phaseLe (by simp [Event.phase, hr]) (by simp)
  case cbEnd =>
    intro j c ctx since ret hg _ _ _
    have hr := hS.rank_cb hg (by simp)
    exact Phased_append _ _ h.phased hT.phaseLe (by simp [Event.phase, hr]) (by simp)
  all_goals intros
  all_goals exact Phased_append _ _ h.phased hT.phaseLe (by simp [Event.phase]) (by simp)

theorem Hist_emit {Q : List (Time × Event) → Time × Event → Prop} {tr : List (Time × Event)}
    (t : Time) (es : List Event) (h : Hist Q tr)
    (hes : HistFrom Q tr (es.map (fun e => (t, e)))) :
    Hist Q (tr ++ es.map (fun e => (t, e))) :=
  (Hist_append Q tr _).2 ⟨h, hes⟩

theorem InvS.stop_all_done {s : Sys} (h : InvS s) (hr : 3 < s.pc.rank) (i : Nat)
    (hi : i < s.app.servers.length) : s.stopG[i]? = some Goroutine.done := by
  have hl := h.stopLen (by omega)
  have hi1 : i < s.stopG.length := by omega
  rw [List.getElem?_eq_getElem hi1, h.stopDone hr _ (List.getElem_mem hi1)]

theorem InvS.cb_all_done {s : Sys} (h : InvS s) (hr : 4 ≤ s.pc.rank) (hw : s.wg = 0) (j : Nat)
    (hj : j < s.app.cbs.length) : s.cbG[j]? = some Goroutine.done := by
  have hl := h.cbLen hr
  have hj1 : j < s.cbG.length := by omega
  have hc : s.cbG.countP Goroutine.pending = 0 := by
    have := h.wgEq
    omega
  rw [List.getElem?_eq_getElem hj1, all_done_of_countP _ hc _ (List.getElem_mem hj1)]

theorem InvH.step_hist {s s1 : Sys} {m : Move} (hS : InvS s) (hT : InvT s) (h : InvH s)
    (hs : s.step m = some s1) :
    Hist (Good s1.app.servers.length s1.app.cbs.length s1.app.waitTime s1.app.cbTimeout)
      s1.trace := by
  refine Sys.step_elim (P := fun s1 =>
      Hist (Good s1.app.servers.length s1.app.cbs.length s1.app.waitTime s1.app.cbTimeout)
        s1.trace) s
    ?tick ?handle ?request ?startErr ?startOk ?startRet ?enter ?reject ?waitStart
    ?waitEnd ?spawnCbs ?closeStart ?closeEnd ?stopStart ?stopEnd ?cbStart ?cbEnd m s1 hs
  all_goals clear hs
  case tick => intro d; exact h.hist
  case handle =>
    intro i p hd srv _
    simpa only [Sys.setServer, List.length_set] using h.hist
  case request =>
    intro i r srv hsrv _
    simp only [Sys.emit]
    refine Hist_emit _ _ h.hist ?_
    simp only [List.map_cons, List.map_nil, HistFrom, Good, and_true]
    intro ho
    exact serverMux.ServeHTTP_reject _ _ _ _ (hT.gate i srv ho hsrv)
  case enter =>
    intro msg t hpc
    exact Hist_emit _ _ (Hist_emit _ _ h.hist (by simp [HistFrom, Good]))
      (by simp [HistFrom, Good])
  case waitStart =>
    intro k hpc hk
    simp only [Sys.emit]
    refine Hist_emit _ _ h.hist ?_
    simp only [List.map_cons, List.map_nil, HistFrom, Good, and_true, true_and]
    intro i hi
    have hki : i < k := by
      have := List.getElem?_eq_none_iff.1 hk
      omega
    exact Occurs_mono _ (hT.rejPre k hpc i hki)
  case waitEnd =>
    intro u hpc hu
    simp only [Sys.emit]
    refine Hist_emit _ _ h.hist ?_
    simp only [List.map_cons, List.map_nil, HistFrom, Good, and_true]
    obtain ⟨y, hy, hy2, hy3⟩ := hT.slept u hpc
    exact ⟨y, hy, hy2, by rw [hy3]; exact hu⟩
  case closeStart =>
    intro hpc hw
    simp only [Sys.emit]
    refine Hist_emit _ _ h.hist ?_
    simp only [List.map_cons, List.map_nil, HistFrom, Good, and_true, true_and]
    intro j hj
    exact Occurs_mono _ (hT.called j (hS.cb_all_done (by simp [hpc, PC.rank]) hw j hj))
  case stopStart =>
    intro i srv hg hsrv
    have hr := hS.rank_stop hg (by simp)
    simp only [Sys.emit, Sys.setServer, List.length_set]
    refine Hist_emit _ _ h.hist ?_
    simp only [List.map_cons, List.map_nil, HistFrom, Good, and_true]
    exact ⟨(List.getElem?_eq_some_iff.1 hsrv).1, hT.waited (by omega)⟩
  case cbStart =>
    intro j hg
    have hr := hS.rank_cb hg (by simp)
    simp only [Sys.emit]
    refine Hist_emit _ _ h.hist ?_
    simp only [List.map_cons, List.map_nil, HistFrom, Good, and_true, true_and]
    refine ⟨?_, fun i hi => ⟨_, hT.stopped i (hS.stop_all_done (by omega) i hi)⟩⟩
    have := hS.cbLen (by omega)
    have := (List.getElem?_eq_some_iff.1 hg).1
    omega
  case stopEnd =>
    intro i srv since ret err hg _ _ _
    exact Hist_emit _ _ h.hist (by cases err <;> simp [HistFrom, Good, stopFailLog])
  case startErr =>
    intro i srv err _ _ _
    simp only [Sys.emit, Sys.setServer, List.length_set]
    exact Hist_emit _ _ h.hist (by simp [HistFrom, Good])
  case startOk =>
    intro i srv _ _ _
    simp only [Sys.emit, Sys.setServer, List.length_set]
    exact Hist_emit _ _ h.hist (by simp [HistFrom, Good])
  case reject =>
    intro k srv _ hsrv
    simp only [Sys.emit, Sys.setServer, List.length_set]
    exact Hist_emit _ _ h.hist
      (by simpa [HistFrom, Good] using (List.getElem?_eq_some_iff.1 hsrv).1)
  all_goals intros
  all_goals exact Hist_emit _ _ h.hist (by simp [HistFrom, Good])

theorem InvH.initH (app : App) (world : Nat → SrvWorld) (find : Find) (t0 : Time) :
    InvH (app.Run world find t0) :=
  ⟨Hist_nil _, List.Pairwise.nil⟩

theorem InvH.stepH {s s1 : Sys} {m : Move} (hS : InvS s) (hT : InvT s) (h : InvH s)
    (hs : s.step m = some s1) : InvH s1 :=
  ⟨h.step_hist hS hT hs, h.step_phased hS hT hs⟩

/-! ## Counting calls -/

theorem countEv_emit (p : Event → Bool) (tr : List (Time × Event)) (t : Time)
    (es : List Event) : countEv p (tr ++ es.map (fun e => (t, e))) = countEv p tr + es.countP p := by
  simp only [countEv, List.countP_append, List.countP_map]
  rfl

theorem startedAt_set_ne {α : Type} (l : List (Goroutine α)) (i i1 : Nat) (g : Goroutine α)
    (h : i ≠ i1) : startedAt (l.set i g) i1 = startedAt l i1 := by
  simp [startedAt, List.getElem?_set_ne h]

theorem startedAt_set_self {α : Type} (l : List (Goroutine α)) (i : Nat) (g0 g : Goroutine α)
    (h : l[i]? = some g0) :
    startedAt (l.set i g) i = (match g with | .ready => 0 | _ => 1) := by
  have hi := (List.getElem?_eq_some_iff.1 h).1
  simp [startedAt, List.getElem?_set_self hi]
  cases g <;> rfl

theorem startedAt_replicate {α : Type} (n i : Nat) :
    startedAt (List.replicate n (Goroutine.ready : Goroutine α)) i = 0 := by
  by_cases hi : i < n <;> simp [startedAt, List.getElem?_replicate, hi]

theorem startedAt_nil {α : Type} (i : Nat) : startedAt ([] : List (Goroutine α)) i = 0 := by
  simp [startedAt]

theorem InvC.step_cntStop {s s1 : Sys} {m : Move} (hS : InvS s) (h : InvC s)
    (hs : s.step m = some s1) :
    ∀ i, countEv (Event.isStopStart i) s1.trace = startedAt s1.stopG i := by
  refine Sys.step_elim (P := fun s1 =>
      ∀ i, countEv (Event.isStopStart i) s1.trace = startedAt s1.stopG i) s
    ?tick ?handle ?request ?startErr ?startOk ?startRet ?enter ?reject ?waitStart
    ?waitEnd ?spawnCbs ?closeStart ?closeEnd ?stopStart ?stopEnd ?cbStart ?cbEnd m s1 hs
  all_goals clear hs
  case tick => intro d; exact h.cntStop
  case handle => intro i p hd srv _; exact h.cntStop
  case enter =>
    intro msg t hpc i
    simp only [Sys.emit, Sys.enterShutdown, countEv_emit]
    simpa [Event.isStopStart] using h.cntStop i
  case waitEnd =>
    intro u hpc _ i
    have e := h.cntStop i
    rw [hS.stopNil (by simp [hpc, PC.rank])] at e
    simp only [Sys.emit, countEv_emit]
    simp [Event.isStopStart, e, startedAt_replicate, startedAt_nil]
  case stopStart =>
    intro i srv hg _ i1
    simp only [Sys.emit, Sys.setServer, countEv_emit]
    by_cases hi : i = i1
    · subst hi
      have e := h.cntStop i
      simp only [startedAt, hg] at e
      rw [startedAt_set_self _ _ _ _ hg, e]
      simp [Event.isStopStart]
    · rw [startedAt_set_ne _ _ _ _ hi, ← h.cntStop i1]
      simp [Event.isStopStart, hi]
  case stopEnd =>
    intro i srv since ret err hg _ _ _ i1
    simp only [Sys.emit, countEv_emit]
    have e0 : (Event.stopEnd i err :: stopFailLog srv err).countP (Event.isStopStart i1) = 0 := by
      cases err <;> simp [stopFailLog, Event.isStopStart]
    rw [e0, Nat.add_zero, h.cntStop i1]
    by_cases hi : i = i1
    · subst hi
      rw [startedAt_set_self _ _ _ _ hg]
      simp [startedAt, hg]
    · rw [startedAt_set_ne _ _ _ _ hi]
  all_goals intros
  all_goals simp only [Sys.emit, Sys.setServer, countEv_emit]
  all_goals intro i1
  all_goals simpa [Event.isStopStart] using h.cntStop i1

theorem InvC.step_cntCb {s s1 : Sys} {m : Move} (hS : InvS s) (h : InvC s)
    (hs : s.step m = some s1) :
    ∀ j, countEv (Event.isCbStart j) s1.trace = startedAt s1.cbG j := by
  refine Sys.step_elim (P := fun s1 =>
      ∀ j, countEv (Event.isCbStart j) s1.trace = startedAt s1.cbG j) s
    ?tick ?handle ?request ?startErr ?startOk ?startRet ?enter ?reject ?waitStart
    ?waitEnd ?spawnCbs ?closeStart ?closeEnd ?stopStart ?stopEnd ?cbStart ?cbEnd m s1 hs
  all_goals clear hs
  case tick => intro d; exact h.cntCb
  case handle => intro i p hd srv _; exact h.cntCb
  case enter =>
    intro msg t hpc i
    simp only [Sys.emit, Sys.enterShutdown, countEv_emit]
    simpa [Event.isCbStart] using h.cntCb i
  case spawnCbs =>
    intro hpc _ j
    have e := h.cntCb j
    rw [hS.cbNil (by simp [hpc, PC.rank])] at e
    simp only [Sys.emit, countEv_emit]
    simp [Event.isCbStart, e, startedAt_replicate, startedAt_nil]
  case cbStart =>
    intro j hg j1
    simp only [Sys.emit, countEv_emit]
    by_cases hj : j = j1
    · subst hj
      have e := h.cntCb j
      simp only [startedAt, hg] at e
      rw [startedAt_set_self _ _ _ _ hg, e]
      simp [Event.isCbStart]
    · rw [startedAt_set_ne _ _ _ _ hj, ← h.cntCb j1]
      simp [Event.isCbStart, hj]
  case cbEnd =>
    intro j c ctx since ret hg _ _ _ j1
    simp only [Sys.emit, countEv_emit]
    rw [h.cntCb j1]
    by_cases hj : j = j1
    · subst hj
      rw [startedAt_set_self _ _ _ _ hg]
      simp [startedAt, hg, Event.isCbStart]
    · rw [startedAt_set_ne _ _ _ _ hj]
      simp [Event.isCbStart]
  case stopEnd =>
    intro i srv since ret err hg _ _ _ j
    simp only [Sys.emit, countEv_emit]
    have e0 : (Event.stopEnd i err :: stopFailLog srv err).countP (Event.isCbStart j) = 0 := by
      cases err <;> simp [stopFailLog, Event.isCbStart]
    rw [e0, Nat.add_zero, h.cntCb j]
  all_goals intros
  all_goals simp only [Sys.emit, Sys.setServer, countEv_emit]
  all_goals intro j1
  all_goals simpa [Event.isCbStart] using h.cntCb j1

theorem InvC.step_cntClose {s s1 : Sys} {m : Move} (h : InvC s) (hs : s.step m = some s1) :
    countEv Event.isCloseStart s1.trace = if 5 ≤ s1.pc.rank then 1 else 0 := by
  refine Sys.step_elim (P := fun s1 =>
      countEv Event.isCloseStart s1.trace = if 5 ≤ s1.pc.rank then 1 else 0) s
    ?tick ?handle ?request ?startErr ?startOk ?startRet ?enter ?reject ?waitStart
    ?waitEnd ?spawnCbs ?closeStart ?closeEnd ?stopStart ?stopEnd ?cbStart ?cbEnd m s1 hs
  all_goals clear hs
  case tick => intro d; exact h.cntClose
  case handle => intro i p hd srv _; exact h.cntClose
  case enter =>
    intro msg t hpc
    have e := h.cntClose
    simp [hpc, PC.rank] at e
    simp only [Sys.emit, Sys.setServer, Sys.enterShutdown, countEv_emit]
    simp [Event.isCloseStart, PC.rank, e]
  case reject =>
    intro k srv hpc _
    have e := h.cntClose
    simp [hpc, PC.rank] at e
    simp only [Sys.emit, Sys.setServer, Sys.enterShutdown, countEv_emit]
    simp [Event.isCloseStart, PC.rank, e]
  case waitStart =>
    intro k hpc _
    have e := h.cntClose
    simp [hpc, PC.rank] at e
    simp only [Sys.emit, Sys.setServer, Sys.enterShutdown, countEv_emit]
    simp [Event.isCloseStart, PC.rank, e]
  case waitEnd =>
    intro u hpc _
    have e := h.cntClose
    simp [hpc, PC.rank] at e
    simp only [Sys.emit, Sys.setServer, Sys.enterShutdown, countEv_emit]
    simp [Event.isCloseStart, PC.rank, e]
  case spawnCbs =>
    intro hpc _
    have e := h.cntClose
    simp [hpc, PC.rank] at e
    simp only [Sys.emit, Sys.setServer, Sys.enterShutdown, countEv_emit]
    simp [Event.isCloseStart, PC.rank, e]
  case closeStart =>
    intro hpc _
    have e := h.cntClose
    simp [hpc, PC.rank] at e
    simp only [Sys.emit, Sys.setServer, Sys.enterShutdown, countEv_emit]
    simp [Event.isCloseStart, PC.rank, e]
  case closeEnd =>
    intro u hpc _
    have e := h.cntClose
    simp [hpc, PC.rank] at e
    simp only [Sys.emit, Sys.setServer, Sys.enterShutdown, countEv_emit]
    simp [Event.isCloseStart, PC.rank, e]
  case stopEnd =>
    intro i srv since ret err hg _ _ _
    simp only [Sys.emit, countEv_emit]
    have e0 : (Event.stopEnd i err :: stopFailLog srv err).countP Event.isCloseStart = 0 := by
      cases err <;> simp [stopFailLog, Event.isCloseStart]
    rw [e0, Nat.add_zero, h.cntClose]
  all_goals intros
  all_goals simp only [Sys.emit, Sys.setServer, countEv_emit]
  all_goals simpa [Event.isCloseStart] using h.cntClose

theorem InvC.step_cntCloseEnd {s s1 : Sys} {m : Move} (h : InvC s) (hs : s.step m = some s1) :
    countEv Event.isCloseEnd s1.trace = if 6 ≤ s1.pc.rank then 1 else 0 := by
  refine Sys.step_elim (P := fun s1 =>
      countEv Event.isCloseEnd s1.trace = if 6 ≤ s1.pc.rank then 1 else 0) s
    ?tick ?handle ?request ?startErr ?startOk ?startRet ?enter ?reject ?waitStart
    ?waitEnd ?spawnCbs ?closeStart ?closeEnd ?stopStart ?stopEnd ?cbStart ?cbEnd m s1 hs
  all_goals clear hs
  case tick => intro d; exact h.cntCloseEnd
  case handle => intro i p hd srv _; exact h.cntCloseEnd
  case enter =>
    intro msg t hpc
    have e := h.cntCloseEnd
    simp [hpc, PC.rank] at e
    simp only [Sys.emit, Sys.setServer, Sys.enterShutdown, countEv_emit]
    simp [Event.isCloseEnd, PC.rank, e]
  case reject =>
    intro k srv hpc _
    have e := h.cntCloseEnd
    simp [hpc, PC.rank] at e
    simp only [Sys.emit, Sys.setServer, Sys.enterShutdown, countEv_emit]
    simp [Event.isCloseEnd, PC.rank, e]
  case waitStart =>
    intro k hpc _
    have e := h.cntCloseEnd
    simp [hpc, PC.rank] at e
    simp only [Sys.emit, Sys.setServer, Sys.enterShutdown, countEv_emit]
    simp [Event.isCloseEnd, PC.rank, e]
  case waitEnd =>
    intro u hpc _
    have e := h.cntCloseEnd
    simp [hpc, PC.rank] at e
    simp only [Sys.emit, Sys.setServer, Sys.enterShutdown, countEv_emit]
    simp [Event.isCloseEnd, PC.rank, e]
  case spawnCbs =>
    intro hpc _
    have e := h.cntCloseEnd
    simp [hpc, PC.rank] at e
    simp only [Sys.emit, Sys.setServer, Sys.enterShutdown, countEv_emit]
    simp [Event.isCloseEnd, PC.rank, e]
  case closeStart =>
    intro hpc _
    have e := h.cntCloseEnd
    simp [hpc, PC.rank] at e
    simp only [Sys.emit, Sys.setServer, Sys.enterShutdown, countEv_emit]
    simp [Event.isCloseEnd, PC.rank, e]
  case closeEnd =>
    intro u hpc _
    have e := h.cntCloseEnd
    simp [hpc, PC.rank] at e
    simp only [Sys.emit, Sys.setServer, Sys.enterShutdown, countEv_emit]
    simp [Event.isCloseEnd, PC.rank, e]
  case stopEnd =>
    intro i srv since ret err hg _ _ _
    simp only [Sys.emit, countEv_emit]
    have e0 : (Event.stopEnd i err :: stopFailLog srv err).countP Event.isCloseEnd = 0 := by
      cases err <;> simp [stopFailLog, Event.isCloseEnd]
    rw [e0, Nat.add_zero, h.cntCloseEnd]
  all_goals intros
  all_goals simp only [Sys.emit, Sys.setServer, countEv_emit]
  all_goals simpa [Event.isCloseEnd] using h.cntCloseEnd

theorem InvC.initC (app : App) (world : Nat → SrvWorld) (find : Find) (t0 : Time) :
    InvC (app.Run world find t0) := by
  constructor <;> simp [App.Run, PC.rank, countEv, startedAt]

theorem InvC.stepC {s s1 : Sys} {m : Move} (hS : InvS s) (h : InvC s)
    (hs : s.step m = some s1) : InvC s1 :=
  ⟨h.step_cntStop hS hs, h.step_cntCb hS hs, h.step_cntClose hs, h.step_cntCloseEnd hs⟩

/-! ## Runs -/

theorem Inv.initial (app : App) (world : Nat → SrvWorld) (find : Find) (t0 : Time) :
    Inv (app.Run world find t0) :=
  ⟨InvS.initS .., InvT.initT .., InvH.initH .., InvC.initC ..⟩

theorem Inv.next {s s1 : Sys} {m : Move} (h : Inv s) (hs : s.step m = some s1) : Inv s1 :=
  ⟨h.toS.stepS hs, h.toT.stepT h.toS hs, h.toH.stepH h.toS h.toT hs, h.toC.stepC h.toS hs⟩

theorem Sys.run_cons (s : Sys) (m : Move) (ms : List Move) :
    s.run (m :: ms) = ((s.step m).getD s).run ms := rfl

theorem Sys.run_append (s : Sys) (ms ns : List Move) :
    s.run (ms ++ ns) = (s.run ms).run ns := by
  simp [Sys.run, List.foldl_append]

theorem Inv.run {s : Sys} (h : Inv s) (ms : List Move) : Inv (s.run ms) := by
  induction ms generalizing s with
  | nil => exact h
  | cons m ms ih =>
    rw [Sys.run_cons]
    cases hs : s.step m with
    | none => exact ih h
    | some s1 => exact ih (h.next hs)

/-! ## The configuration is constant -/

theorem Sys.SameCfg.refl (s : Sys) : s.SameCfg s := by
  simp [Sys.SameCfg]

theorem Sys.SameCfg.trans {s s1 s2 : Sys} (h1 : s.SameCfg s1) (h2 : s1.SameCfg s2) :
    s.SameCfg s2 := by
  obtain ⟨a1, a2, a3, a4, a5, a6, a7⟩ := h1
  obtain ⟨b1, b2, b3, b4, b5, b6, b7⟩ := h2
  exact ⟨b1.trans a1, b2.trans a2, b3.trans a3, b4.trans a4, b5.trans a5, b6.trans a6,
    b7.trans a7⟩

theorem Sys.step_sameCfg {s s1 : Sys} {m : Move} (hs : s.step m = some s1) : s.SameCfg s1 := by
  refine Sys.step_elim (P := fun s1 => s.SameCfg s1) s
    ?tick ?handle ?request ?startErr ?startOk ?startRet ?enter ?reject ?waitStart
    ?waitEnd ?spawnCbs ?closeStart ?closeEnd ?stopStart ?stopEnd ?cbStart ?cbEnd m s1 hs
  all_goals intros
  all_goals simp [Sys.SameCfg, Sys.emit, Sys.setServer, Sys.enterShutdown]

theorem Sys.run_sameCfg (s : Sys) (ms : List Move) : s.SameCfg (s.run ms) := by
  induction ms generalizing s with
  | nil => exact Sys.SameCfg.refl s
  | cons m ms ih =>
    rw [Sys.run_cons]
    cases hs : s.step m with
    | none => exact ih s
    | some s1 => exact (Sys.step_sameCfg hs).trans (ih s1)

/-! ## Progress -/

theorem sum_weight_set {α : Type} (l : List (Goroutine α)) (i : Nat) (g0 g : Goroutine α)
    (h : l[i]? = some g0) :
    ((l.set i g).map Goroutine.weight).sum + g0.weight = (l.map Goroutine.weight).sum + g.weight := by
  induction l generalizing i with
  | nil => simp at h
  | cons x l ih =>
    cases i with
    | zero =>
      simp only [List.getElem?_cons_zero, Option.some.injEq] at h
      subst h
      simp only [List.set_cons_zero, List.map_cons, List.sum_cons]
      omega
    | succ i =>
      simp only [List.getElem?_cons_succ] at h
      have := ih i h
      simp only [List.set_cons_succ, List.map_cons, List.sum_cons]
      omega

theorem exists_pending {α : Type} (l : List (Goroutine α))
    (h : l.countP Goroutine.pending ≠ 0) :
    ∃ (i : Nat) (g : Goroutine α), l[i]? = some g ∧ g ≠ Goroutine.done := by
  have hpos : 0 < l.countP Goroutine.pending := Nat.pos_of_ne_zero h
  obtain ⟨g, hg, hp⟩ := List.countP_pos_iff.1 hpos
  obtain ⟨i, hi⟩ := List.mem_iff_getElem?.1 hg
  refine ⟨i, g, hi, ?_⟩
  rintro rfl
  simp [Goroutine.pending] at hp

theorem Sys.run_one {s s1 : Sys} {m : Move} (h : s.step m = some s1) : s.run [m] = s1 := by
  simp [Sys.run, h]

theorem Sys.run_tick_one {s s1 : Sys} (d : Nat) {m : Move}
    (h : Sys.step { s with now := s.now + d } m = some s1) : s.run [Move.tick d, m] = s1 := by
  have e1 : s.step (Move.tick d) = some { s with now := s.now + d } := rfl
  rw [Sys.run_cons, e1, Option.getD_some, Sys.run_one h]

theorem Server.stop_snd (srv : Server) (wd : SrvWorld) (since : Time) (d : Nat)
    (hd : wd.idleAfter = some d) : (srv.stop wd since).2 = some (since + d, wd.closeErr) := by
  simp [Server.stop, HttpServer.Shutdown, Context.Background, hd]

theorem le_add_toNat (u now : Int) : u ≤ now + ((u - now).toNat : Int) := by
  have := Int.self_le_toNat (u - now)
  omega

theorem Sys.progress {s : Sys} (h : Inv s)
    (hstop : ∀ i, (s.world i).idleAfter ≠ none)
    (hcb : ∀ c ∈ s.app.cbs, ∀ ctx t, c ctx t ≠ none)
    (hpc : s.pc ≠ PC.terminated) : ∃ ms, (s.run ms).todo < s.todo := by
  cases hp : s.pc with
  | terminated => exact absurd hp hpc
  | select t =>
    refine ⟨[Move.signal], ?_⟩
    have e : s.step Move.signal = some (s.emit [Event.log "强制退出"]).enterShutdown := by
      simp [Sys.step, hp]
    rw [Sys.run_one e]
    simp [Sys.todo, Sys.enterShutdown, Sys.emit, PC.todo, PC.rank, hp]
  | rejecting k =>
    refine ⟨[Move.main], ?_⟩
    cases hk : s.app.servers[k]? with
    | none =>
      have e : s.step Move.main = some { s.emit [Event.log "等待正在执行请求完结",
          Event.waitStart s.app.waitTime] with pc := PC.sleeping (s.now + s.app.waitTime) } := by
        simp [Sys.step, Sys.main_eq, hp, hk]
      rw [Sys.run_one e]
      simp [Sys.todo, Sys.emit, PC.todo, PC.rank, hp]
    | some srv =>
      have e : s.step Move.main = some { (s.setServer k srv.rejectReq).emit
          [Event.rejectReq k] with pc := PC.rejecting (k + 1) } := by
        simp [Sys.step, Sys.main_eq, hp, hk]
      rw [Sys.run_one e]
      have hlt := (List.getElem?_eq_some_iff.1 hk).1
      simp [Sys.todo, Sys.emit, Sys.setServer, PC.todo, PC.rank, hp]
      omega
  | sleeping u =>
    refine ⟨[Move.tick (u - s.now).toNat, Move.main], ?_⟩
    have e : Sys.step { s with now := s.now + (u - s.now).toNat } Move.main =
        some { Sys.emit { s with now := s.now + (u - s.now).toNat }
            [Event.waitEnd, Event.log "停止所有服务"] with
          wg := s.wg + s.app.servers.length
          stopG := List.replicate s.app.servers.length Goroutine.ready
          pc := PC.stopWait } := by
      simp only [Sys.step, Sys.main_eq, hp]
      rw [if_pos (le_add_toNat u s.now)]
    rw [Sys.run_tick_one _ e]
    simp [Sys.todo, Sys.emit, PC.todo, PC.rank, hp, Goroutine.weight]
    try omega
  | closing u =>
    refine ⟨[Move.tick (u - s.now).toNat, Move.main], ?_⟩
    have e : Sys.step { s with now := s.now + (u - s.now).toNat } Move.main =
        some { Sys.emit { s with now := s.now + (u - s.now).toNat }
            [Event.log "应用关闭", Event.closeEnd] with pc := PC.terminated } := by
      simp only [Sys.step, Sys.main_eq, hp]
      rw [if_pos (le_add_toNat u s.now)]
    rw [Sys.run_tick_one _ e]
    simp [Sys.todo, Sys.emit, PC.todo, PC.rank, hp]
  | stopWait =>
    by_cases hw : s.wg = 0
    · refine ⟨[Move.main], ?_⟩
      have e : s.step Move.main = some { s.emit [Event.log "开始执行自定义回调"] with
          wg := s.wg + s.app.cbs.length
          cbG := List.replicate s.app.cbs.length Goroutine.ready
          pc := PC.cbWait } := by
        simp [Sys.step, Sys.main_eq, hp, hw]
      rw [Sys.run_one e]
      simp [Sys.todo, Sys.emit, PC.todo, PC.rank, hp, Goroutine.weight]
      try omega
    · have hc : s.cbG = [] := h.toS.cbNil (by simp [hp, PC.rank])
      have hcnt : s.stopG.countP Goroutine.pending ≠ 0 := by
        have := h.toS.wgEq
        simp only [hc, List.countP_nil, Nat.add_zero] at this
        omega
      obtain ⟨i, g, hg, hne⟩ := exists_pending _ hcnt
      have hlen := h.toS.stopLen (by simp [hp, PC.rank])
      have hi : i < s.app.servers.length := by
        have := (List.getElem?_eq_some_iff.1 hg).1
        omega
      have hsrv : s.app.servers[i]? = some s.app.servers[i] := List.getElem?_eq_getElem hi
      cases g with
      | done => exact absurd rfl hne
      | ready =>
        refine ⟨[Move.stopStart i], ?_⟩
        have e : s.step (Move.stopStart i) = some
            { (s.setServer i (s.app.servers[i].stop (s.world i) s.now).1).emit
                [Event.stopStart i, Event.log s.app.servers[i].stopLog] with
              stopG := s.stopG.set i (Goroutine.running s.now) } := by
          simp [Sys.step, hg, hsrv]
        rw [Sys.run_one e]
        have := sum_weight_set s.stopG i _ (Goroutine.running s.now) hg
        simp [Sys.todo, Sys.emit, Sys.setServer, PC.todo, PC.rank, hp, Goroutine.weight] at this ⊢
        omega
      | running since =>
        obtain ⟨d, hd⟩ := Option.isSome_iff_exists.1 (Option.ne_none_iff_isSome.1 (hstop i))
        have hr := Server.stop_snd s.app.servers[i] (s.world i) since d hd
        refine ⟨[Move.tick (since + d - s.now).toNat, Move.stopEnd i], ?_⟩
        have e : Sys.step { s with now := s.now + (since + d - s.now).toNat } (Move.stopEnd i) =
            some { Sys.emit { s with now := s.now + (since + d - s.now).toNat }
                (Event.stopEnd i (s.world i).closeErr ::
                  stopFailLog s.app.servers[i] (s.world i).closeErr) with
              wg := s.wg - 1
              stopG := s.stopG.set i Goroutine.done } := by
          simp only [Sys.step, hg, hsrv, hr]
          rw [if_pos (le_add_toNat (since + d) s.now)]
        rw [Sys.run_tick_one _ e]
        have := sum_weight_set s.stopG i _ Goroutine.done hg
        simp [Sys.todo, Sys.emit, PC.todo, PC.rank, hp, Goroutine.weight] at this ⊢
        omega
  | cbWait =>
    by_cases hw : s.wg = 0
    · refine ⟨[Move.main], ?_⟩
      have e : s.step Move.main = some { s.emit [Event.log "开始释放资源", Event.closeStart] with
          pc := PC.closing (s.now + Second) } := by
        simp [Sys.step, Sys.main_eq, hp, hw]
      rw [Sys.run_one e]
      simp [Sys.todo, Sys.emit, PC.todo, PC.rank, hp]
    · have hcnt : s.cbG.countP Goroutine.pending ≠ 0 := by
        have := h.toS.wgEq
        have hz : s.stopG.countP Goroutine.pending = 0 :=
          List.countP_eq_zero.2 fun g hg => by
            rw [h.toS.stopDone (by simp [hp, PC.rank]) g hg]
            simp [Goroutine.pending]
        omega
      obtain ⟨j, g, hg, hne⟩ := exists_pending _ hcnt
      have hlen := h.toS.cbLen (by simp [hp, PC.rank])
      have hj : j < s.app.cbs.length := by
        have := (List.getElem?_eq_some_iff.1 hg).1
        omega
      have hc : s.app.cbs[j]? = some s.app.cbs[j] := List.getElem?_eq_getElem hj
      cases g with
      | done => exact absurd rfl hne
      | ready =>
        refine ⟨[Move.cbStart j], ?_⟩
        have e : s.step (Move.cbStart j) = some
            { s.emit [Event.cbStart j
                (Context.WithTimeout Context.Background s.app.cbTimeout s.now)] with
              cbG := s.cbG.set j (Goroutine.running
                (Context.WithTimeout Context.Background s.app.cbTimeout s.now, s.now)) } := by
          simp [Sys.step, hg]
        rw [Sys.run_one e]
        have := sum_weight_set s.cbG j _ (Goroutine.running
          (Context.WithTimeout Context.Background s.app.cbTimeout s.now, s.now)) hg
        simp [Sys.todo, Sys.emit, PC.todo, PC.rank, hp, Goroutine.weight] at this ⊢
        omega
      | running loc =>
        obtain ⟨ctx, since⟩ := loc
        obtain ⟨ret, hret⟩ := Option.isSome_iff_exists.1
          (Option.ne_none_iff_isSome.1 (hcb _ (List.getElem_mem hj) ctx since))
        refine ⟨[Move.tick (ret - s.now).toNat, Move.cbEnd j], ?_⟩
        have e : Sys.step { s with now := s.now + (ret - s.now).toNat } (Move.cbEnd j) =
            some { Sys.emit { s with now := s.now + (ret - s.now).toNat } [Event.cbEnd j] with
              wg := s.wg - 1
              cbG := s.cbG.set j Goroutine.done } := by
          simp only [Sys.step, hg, hc, hret]
          rw [if_pos (le_add_toNat ret s.now)]
        rw [Sys.run_tick_one _ e]
        have := sum_weight_set s.cbG j _ Goroutine.done hg
        simp [Sys.todo, Sys.emit, PC.todo, PC.rank, hp, Goroutine.weight] at this ⊢
        omega

theorem Sys.completes (n : Nat) : ∀ s : Sys, s.todo = n → Inv s →
    (∀ i, (s.world i).idleAfter ≠ none) → (∀ c ∈ s.app.cbs, ∀ ctx t, c ctx t ≠ none) →
    ∃ ms, (s.run ms).pc = PC.terminated := by
  induction n using Nat.strong_induction_on with
  | _ n ih =>
    intro s hn h hstop hcb
    by_cases hpc : s.pc = PC.terminated
    · exact ⟨[], hpc⟩
    · obtain ⟨ms, hlt⟩ := Sys.progress h hstop hcb hpc
      obtain ⟨_, e2, _, _, _, e6, _⟩ := Sys.run_sameCfg s ms
      obtain ⟨ns, hns⟩ := ih _ (hn ▸ hlt) (s.run ms) rfl (h.run ms)
        (by rw [e6]; exact hstop) (by rw [e2]; exact hcb)
      exact ⟨ms ++ ns, by rw [Sys.run_append]; exact hns⟩

/-! ## A closed gate stays closed -/

theorem rejecting_set {l : List Server} {i0 : Nat} {srv0 v : Server} (h0 : l[i0]? = some srv0)
    (hv : srv0.mux.reject = true → v.mux.reject = true) (i : Nat)
    (h : (match l[i]? with | some srv => srv.mux.reject | none => false) = true) :
    (match (l.set i0 v)[i]? with | some srv => srv.mux.reject | none => false) = true := by
  by_cases e : i0 = i
  · subst e
    rw [h0] at h
    rw [List.getElem?_set_self (List.getElem?_eq_some_iff.1 h0).1]
    exact hv h
  · rw [List.getElem?_set_ne e]
    exact h

theorem Sys.step_rejecting {s s1 : Sys} {m : Move} (hs : s.step m = some s1) :
    ∀ i, s.rejecting i = true → s1.rejecting i = true := by
  refine Sys.step_elim (P := fun s1 => ∀ i, s.rejecting i = true → s1.rejecting i = true) s
    ?tick ?handle ?request ?startErr ?startOk ?startRet ?enter ?reject ?waitStart
    ?waitEnd ?spawnCbs ?closeStart ?closeEnd ?stopStart ?stopEnd ?cbStart ?cbEnd m s1 hs
  all_goals clear hs
  case handle =>
    intro i0 p hd srv0 h0
    exact rejecting_set h0 (fun hr => by simpa [Server.Handle] using hr)
  case startErr =>
    intro i0 srv0 err _ h0 _
    exact rejecting_set h0 (fun hr => by simpa [Server.start] using hr)
  case startOk =>
    intro i0 srv0 _ h0 _
    exact rejecting_set h0 (fun hr => by simpa [Server.start] using hr)
  case stopStart =>
    intro i0 srv0 _ h0
    exact rejecting_set h0 (fun hr => by simpa [Server.stop] using hr)
  case reject =>
    intro i0 srv0 _ h0
    exact rejecting_set h0 (fun _ => rfl)
  all_goals intros
  all_goals exact fun i hi => hi

theorem Sys.run_rejecting (s : Sys) (ms : List Move) (i : Nat) (h : s.rejecting i = true) :
    (s.run ms).rejecting i = true := by
  induction ms generalizing s with
  | nil => exact h
  | cons m ms ih =>
    rw [Sys.run_cons]
    cases hs : s.step m with
    | none => exact ih s h
    | some s1 => exact ih s1 (Sys.step_rejecting hs i h)

/-! ## The total shutdown budget is not read -/

set_option maxHeartbeats 1000000 in
theorem Sys.step_withShutdownTimeout (s : Sys) (d : Duration) (m : Move) :
    (s.withShutdownTimeout d).step m = (s.step m).map (fun s1 => s1.withShutdownTimeout d) := by
  obtain ⟨now, world, find, app, pc, startG, stopG, cbG, wg, trace⟩ := s
  obtain ⟨servers, st, wt, cbT, cbs⟩ := app
  cases m with
  | tick d => rfl
  | main =>
    cases pc with
    | rejecting k =>
      simp only [Sys.step, Sys.main, Sys.shutdown, Sys.close, Sys.withShutdownTimeout]
      cases servers[k]? <;> rfl
    | select t =>
      simp only [Sys.step, Sys.main, Sys.shutdown, Sys.close, Sys.withShutdownTimeout]
      split <;> rfl
    | sleeping t =>
      simp only [Sys.step, Sys.main, Sys.shutdown, Sys.close, Sys.withShutdownTimeout]
      split <;> rfl
    | closing t =>
      simp only [Sys.step, Sys.main, Sys.shutdown, Sys.close, Sys.withShutdownTimeout]
      split <;> rfl
    | stopWait =>
      simp only [Sys.step, Sys.main, Sys.shutdown, Sys.close, Sys.withShutdownTimeout]
      split <;> rfl
    | cbWait =>
      simp only [Sys.step, Sys.main, Sys.shutdown, Sys.close, Sys.withShutdownTimeout]
      split <;> rfl
    | terminated => rfl
  | signal => cases pc <;> rfl
  | Handle i p hd =>
    simp only [Sys.step, Sys.withShutdownTimeout]
    cases servers[i]? <;> rfl
  | request i r =>
    simp only [Sys.step, Sys.withShutdownTimeout]
    cases servers[i]? with
    | none => rfl
    | some srv => simp only []; split <;> rfl
  | start i =>
    simp only [Sys.step, Sys.withShutdownTimeout]
    cases startG[i]? with
    | none => rfl
    | some g =>
      cases servers[i]? with
      | none => cases g <;> rfl
      | some srv =>
        cases g with
        | ready => simp only []; cases (srv.start (world i)).2 <;> rfl
        | _ => rfl
  | startRet i =>
    simp only [Sys.step, Sys.withShutdownTimeout]
    cases startG[i]? with
    | none => rfl
    | some g =>
      cases servers[i]? with
      | none => cases g <;> rfl
      | some srv =>
        cases g with
        | running u => simp only []; split <;> rfl
        | _ => rfl
  | stopStart i =>
    simp only [Sys.step, Sys.withShutdownTimeout]
    cases stopG[i]? with
    | none => rfl
    | some g =>
      cases servers[i]? with
      | none => cases g <;> rfl
      | some srv => cases g <;> rfl
  | stopEnd i =>
    simp only [Sys.step, Sys.withShutdownTimeout]
    cases stopG[i]? with
    | none => rfl
    | some g =>
      cases servers[i]? with
      | none => cases g <;> rfl
      | some srv =>
        cases g with
        | running since =>
          simp only []
          cases (srv.stop (world i) since).2 with
          | none => rfl
          | some p => simp only []; split <;> rfl
        | _ => rfl
  | cbStart j =>
    simp only [Sys.step, Sys.withShutdownTimeout]
    cases cbG[j]? with
    | none => rfl
    | some g => cases g <;> rfl
  | cbEnd j =>
    simp only [Sys.step, Sys.withShutdownTimeout]
    cases cbG[j]? with
    | none => rfl
    | some g =>
      cases cbs[j]? with
      | none => cases g <;> rfl
      | some c =>
        cases g with
        | running loc =>
          simp only []
          cases c loc.1 loc.2 with
          | none => rfl
          | some ret => simp only []; split <;> rfl
        | _ => rfl

theorem Sys.run_withShutdownTimeout (s : Sys) (d : Duration) (ms : List Move) :
    (s.withShutdownTimeout d).run ms = (s.run ms).withShutdownTimeout d := by
  induction ms generalizing s with
  | nil => rfl
  | cons m ms ih =>
    rw [Sys.run_cons, Sys.run_cons, Sys.step_withShutdownTimeout]
    cases hs : s.step m with
    | none => exact ih s
    | some s1 => exact ih s1

/-! ## Runs of an application -/

theorem Hist.imp {Q R : List (Time × Event) → Time × Event → Prop} {tr : List (Time × Event)}
    (h : Hist Q tr) (hi : ∀ pre x, Q pre x → R pre x) : Hist R tr :=
  fun pre x post e => hi pre x (h pre x post e)

/-- The invariants of a run, in terms of the application it was started on. -/
theorem App.run_inv (app : App) (world : Nat → SrvWorld) (find : Find) (t0 : Time)
    (ms : List Move) :
    Inv ((app.Run world find t0).run ms) ∧
      ((app.Run world find t0).run ms).app.servers.length = app.servers.length ∧
      ((app.Run world find t0).run ms).app.cbs = app.cbs ∧
      ((app.Run world find t0).run ms).app.waitTime = app.waitTime ∧
      ((app.Run world find t0).run ms).app.cbTimeout = app.cbTimeout ∧
      ((app.Run world find t0).run ms).world = world := by
  obtain ⟨e1, e2, e3, e4, _, e6, _⟩ := Sys.run_sameCfg (app.Run world find t0) ms
  exact ⟨(Inv.initial app world find t0).run ms, e1, e2, e3, e4, e6⟩

theorem App.run_hist (app : App) (world : Nat → SrvWorld) (find : Find) (t0 : Time)
    (ms : List Move) :
    Hist (Good app.servers.length app.cbs.length app.waitTime app.cbTimeout)
      ((app.Run world find t0).run ms).trace := by
  obtain ⟨h, e1, e2, e3, e4, _⟩ := app.run_inv world find t0 ms
  have := h.toH.hist
  rwa [e1, e2, e3, e4] at this

theorem startedAt_le_one {α : Type} (l : List (Goroutine α)) (i : Nat) : startedAt l i ≤ 1 := by
  unfold startedAt
  split <;> simp

theorem startedAt_done {α : Type} (l : List (Goroutine α)) (i : Nat)
    (h : l[i]? = some Goroutine.done) : startedAt l i = 1 := by
  simp [startedAt, h]

theorem Sys.step_returned {s s1 : Sys} {m : Move}
    (h : ∀ i, s.stopG[i]? = some Goroutine.done → (s.world i).idleAfter ≠ none)
    (hs : s.step m = some s1) :
    ∀ i, s1.stopG[i]? = some Goroutine.done → (s1.world i).idleAfter ≠ none := by
  refine Sys.step_elim (P := fun s1 =>
      ∀ i, s1.stopG[i]? = some Goroutine.done → (s1.world i).idleAfter ≠ none) s
    ?tick ?handle ?request ?startErr ?startOk ?startRet ?enter ?reject ?waitStart
    ?waitEnd ?spawnCbs ?closeStart ?closeEnd ?stopStart ?stopEnd ?cbStart ?cbEnd m s1 hs
  all_goals clear hs
  case waitEnd =>
    intro u hpc _ i hi
    simp [List.getElem?_replicate] at hi
  case stopStart =>
    intro i srv hg _ i1 hi1
    simp only [Sys.emit, Sys.setServer] at hi1 ⊢
    rw [List.getElem?_set] at hi1
    split at hi1
    · split at hi1 <;> simp at hi1
    · exact h i1 hi1
  case stopEnd =>
    intro i srv since ret err hg _ hr _ i1 hi1
    simp only [Sys.emit] at hi1 ⊢
    rw [List.getElem?_set] at hi1
    split at hi1
    · next e =>
      subst e
      obtain ⟨_, d, hd, _⟩ := Server.stop_some hr
      simp [hd]
    · exact h i1 hi1
  all_goals intros
  all_goals exact h

theorem Sys.run_returned (s : Sys) (ms : List Move)
    (h : ∀ i, s.stopG[i]? = some Goroutine.done → (s.world i).idleAfter ≠ none) :
    ∀ i, (s.run ms).stopG[i]? = some Goroutine.done → ((s.run ms).world i).idleAfter ≠ none := by
  induction ms generalizing s with
  | nil => exact h
  | cons m ms ih =>
    rw [Sys.run_cons]
    cases hs : s.step m with
    | none => exact ih s h
    | some s1 => exact ih s1 (Sys.step_returned h hs)

/-! ## The claims -/

/-- C1: on a server built by `NewServer`, whatever was registered with
`Handle` and whatever happens after `rejectReq`, `serverMux.ServeHTTP` calls
`WriteHeader(503)` and `Write("服务已关闭")` on the writer and does not enter
the wrapped `ServeMux`; on a fresh writer the response is status 503 with
that body.  In every run of the program, a request served by listener `i`
after `rejectReq` ran on it gets exactly this response. -/
theorem gate_closed_rejects (find : Find) (name addr : String)
    (regs : List (String × Handler)) (ops : List ServerOp) (w : ResponseWriter) (r : Request)
    (app : App) (world : Nat → SrvWorld) (t0 : Time) (ms : List Move) :
    (ops.foldl Server.apply
        (regs.foldl (fun s ph => s.Handle ph.1 ph.2) (NewServer name addr)).rejectReq
      ).mux.ServeHTTP find w r =
        { calls := w.calls ++ [WCall.WriteHeader 503, WCall.Write "服务已关闭"]
          muxEntered := w.muxEntered } ∧
      (rejected ResponseWriter.fresh).status = some 503 ∧
      (rejected ResponseWriter.fresh).body = "服务已关闭" ∧
      (rejected ResponseWriter.fresh).muxEntered = 0 ∧
      Hist (fun pre x => ∀ i rq resp, x.2 = Event.served i rq resp →
          Occurs (· = Event.rejectReq i) pre → resp = rejected ResponseWriter.fresh)
        ((app.Run world find t0).run ms).trace := by
  refine ⟨?_, rfl, rfl, rfl, ?_⟩
  · exact serverMux.ServeHTTP_reject find _ w r (Server.foldl_apply_reject ops _ rfl)
  · refine (app.run_hist world find t0 ms).imp ?_
    intro pre x hg i rq resp hx ho
    simp only [Good, hx] at hg
    exact hg ho

/-- In the example run, the request served by listener 0 right after its
`rejectReq` gets the response of a closed gate. -/
theorem gate_closed_rejects_witness :
    ((demoApp.Run demoWorld demoFind 0).run demoSchedule).trace =
        (((demoApp.Run demoWorld demoFind 0).run demoSchedule).trace.take 6) ++
          (0, Event.served 0 demoReq
            { calls := [WCall.WriteHeader 503, WCall.Write "服务已关闭"], muxEntered := 0 }) ::
          (((demoApp.Run demoWorld demoFind 0).run demoSchedule).trace.drop 7) ∧
      Occurs (· = Event.rejectReq 0)
        (((demoApp.Run demoWorld demoFind 0).run demoSchedule).trace.take 6) ∧
      ({ calls := [WCall.WriteHeader 503, WCall.Write "服务已关闭"], muxEntered := 0 } :
        ResponseWriter) = rejected ResponseWriter.fresh := by
  have hs : ((demoApp.Run demoWorld demoFind 0).run demoSchedule).trace =
      (((demoApp.Run demoWorld demoFind 0).run demoSchedule).trace.take 6) ++
        (0, Event.served 0 demoReq
          { calls := [WCall.WriteHeader 503, WCall.Write "服务已关闭"], muxEntered := 0 }) ::
        (((demoApp.Run demoWorld demoFind 0).run demoSchedule).trace.drop 7) := by decide
  have ho : Occurs (· = Event.rejectReq 0)
      (((demoApp.Run demoWorld demoFind 0).run demoSchedule).trace.take 6) :=
    ⟨(0, Event.rejectReq 0), by decide, rfl⟩
  exact ⟨hs, ho, (gate_closed_rejects demoFind "admin" "localhost:8081" [] []
    ResponseWriter.fresh demoReq demoApp demoWorld 0 demoSchedule).2.2.2.2 _ _ _ hs 0 demoReq _
    rfl ho⟩

/-- C2: while `reject` is false, `serverMux.ServeHTTP` is the wrapped
`ServeMux.ServeHTTP` on the same writer and request: the handler chosen by
the routing among the registered routes runs, its calls are appended to the
writer, and the gate adds and removes nothing. -/
theorem gate_open_delegates (find : Find) (m : serverMux) (w : ResponseWriter) (r : Request)
    (h : m.reject = false) :
    m.ServeHTTP find w r = m.ServeMux.ServeHTTP find w r ∧
      m.ServeHTTP find w r =
        { calls := w.calls ++ find m.ServeMux.routes r r, muxEntered := w.muxEntered + 1 } := by
  constructor <;> simp [serverMux.ServeHTTP, ServeMux.ServeHTTP, h]

/-- The gate of the server of `main.go` is open after its construction, and
the request for the registered route gets the greeting of its handler. -/
theorem gate_open_delegates_witness :
    demoBusiness.mux.reject = false ∧
      demoBusiness.mux.ServeHTTP demoFind ResponseWriter.fresh demoReq =
        { calls := [WCall.Write "hello world!"], muxEntered := 1 } :=
  ⟨rfl, ((gate_open_delegates demoFind demoBusiness.mux ResponseWriter.fresh demoReq
    rfl).2).trans (by decide)⟩

/-- C3: in every run of the program, under every schedule: the sleep of
`shutdown` starts only after `rejectReq` ran on every server, it lasts
`app.waitTime` at least and is over before any `stop` is called; a callback
is called only after every `stop` has returned; `close` is called only
after every callback has returned, however long the callback runs. -/
theorem shutdown_phases_ordered (app : App) (world : Nat → SrvWorld) (find : Find) (t0 : Time)
    (ms : List Move) :
    (∀ i, i < app.servers.length →
        Precedes (· = Event.rejectReq i) (fun e => ∃ d, e = Event.waitStart d)
          ((app.Run world find t0).run ms).trace) ∧
      Hist (fun pre x => x.2 = Event.waitEnd →
          ∃ y ∈ pre, y.2 = Event.waitStart app.waitTime ∧ y.1 + app.waitTime ≤ x.1)
        ((app.Run world find t0).run ms).trace ∧
      Precedes (· = Event.waitEnd) (fun e => ∃ i, e = Event.stopStart i)
        ((app.Run world find t0).run ms).trace ∧
      (∀ i, i < app.servers.length →
        Precedes (fun e => ∃ err, e = Event.stopEnd i err)
          (fun e => ∃ j ctx, e = Event.cbStart j ctx)
          ((app.Run world find t0).run ms).trace) ∧
      (∀ j, j < app.cbs.length →
        Precedes (· = Event.cbEnd j) (· = Event.closeStart)
          ((app.Run world find t0).run ms).trace) := by
  have hg := app.run_hist world find t0 ms
  refine ⟨fun i hi => hg.imp ?_, hg.imp ?_, hg.imp ?_, fun i hi => hg.imp ?_,
    fun j hj => hg.imp ?_⟩
  · rintro pre x h ⟨d, hx⟩
    simp only [Good, hx] at h
    exact h.2 i hi
  · intro pre x h hx
    simp only [Good, hx] at h
    exact h
  · rintro pre x h ⟨i, hx⟩
    simp only [Good, hx] at h
    exact h.2
  · rintro pre x h ⟨j, ctx, hx⟩
    simp only [Good, hx] at h
    obtain ⟨err, y, hy, he⟩ := h.2.2 i hi
    exact ⟨y, hy, err, he⟩
  · intro pre x h hx
    simp only [Good, hx] at h
    exact h j hj

/-- In the example run, both `stop` calls have returned when the callback is
called. -/
theorem shutdown_phases_ordered_witness :
    ∃ pre post,
      ((demoApp.Run demoWorld demoFind 0).run demoSchedule).trace =
          pre ++ (10000000005, Event.cbStart 0 { deadline := some 13000000005 }) :: post ∧
        Occurs (fun e => ∃ err, e = Event.stopEnd 0 err) pre ∧
        Occurs (fun e => ∃ err, e = Event.stopEnd 1 err) pre := by
  have hmem : (10000000005, Event.cbStart 0 { deadline := some 13000000005 }) ∈
      ((demoApp.Run demoWorld demoFind 0).run demoSchedule).trace := by decide
  obtain ⟨pre, post, hs⟩ := List.append_of_mem hmem
  have h := (shutdown_phases_ordered demoApp demoWorld demoFind 0 demoSchedule).2.2.2.1
  exact ⟨pre, post, hs, h 0 (by decide) pre _ post hs ⟨0, _, rfl⟩,
    h 1 (by decide) pre _ post hs ⟨0, _, rfl⟩⟩

/-- C4: whatever errors the `stop` calls return, a run in which every
`stop` call and every callback returns can always be continued until `Run`
returns; no `stop` and no callback is ever called twice, and the events of
the phases never come out of order; and when `Run` has returned, `stop` was
called exactly once on every server and returned its error, every callback
was called exactly once and returned, and `close` was called once and
returned. -/
theorem shutdown_completes (app : App) (world : Nat → SrvWorld) (find : Find) (t0 : Time)
    (hstop : ∀ i, (world i).idleAfter ≠ none)
    (hcb : ∀ c ∈ app.cbs, ∀ ctx t, c ctx t ≠ none) (ms : List Move) :
    (∃ ns, ((app.Run world find t0).run (ms ++ ns)).pc = PC.terminated) ∧
      Phased ((app.Run world find t0).run ms).trace ∧
      (∀ i, countEv (Event.isStopStart i) ((app.Run world find t0).run ms).trace ≤ 1) ∧
      (∀ j, countEv (Event.isCbStart j) ((app.Run world find t0).run ms).trace ≤ 1) ∧
      (((app.Run world find t0).run ms).pc = PC.terminated →
        (∀ i, i < app.servers.length →
          countEv (Event.isStopStart i) ((app.Run world find t0).run ms).trace = 1 ∧
            Occurs (· = Event.stopEnd i (world i).closeErr)
              ((app.Run world find t0).run ms).trace) ∧
        (∀ j, j < app.cbs.length →
          countEv (Event.isCbStart j) ((app.Run world find t0).run ms).trace = 1 ∧
            Occurs (· = Event.cbEnd j) ((app.Run world find t0).run ms).trace) ∧
        countEv Event.isCloseStart ((app.Run world find t0).run ms).trace = 1 ∧
        countEv Event.isCloseEnd ((app.Run world find t0).run ms).trace = 1) := by
  obtain ⟨h, e1, e2, _, _, e6⟩ := app.run_inv world find t0 ms
  refine ⟨?_, h.toH.phased, ?_, ?_, ?_⟩
  · obtain ⟨ns, hns⟩ := Sys.completes _ _ rfl h (by rw [e6]; exact hstop) (by rw [e2]; exact hcb)
    exact ⟨ns, by rw [Sys.run_append]; exact hns⟩
  · intro i
    rw [h.toC.cntStop i]
    exact startedAt_le_one _ i
  · intro j
    rw [h.toC.cntCb j]
    exact startedAt_le_one _ j
  · intro hpc
    have hr : ((app.Run world find t0).run ms).pc.rank = 6 := by rw [hpc]; rfl
    refine ⟨fun i hi => ?_, fun j hj => ?_, ?_, ?_⟩
    · have hd := h.toS.stop_all_done (by omega) i (by omega)
      refine ⟨by rw [h.toC.cntStop i, startedAt_done _ _ hd], ?_⟩
      have := h.toT.stopped i hd
      rwa [e6] at this
    · have hl := h.toS.cbLen (by omega)
      have hj1 : j < ((app.Run world find t0).run ms).cbG.length := by
        rw [hl, e2]
        exact hj
      have hd : ((app.Run world find t0).run ms).cbG[j]? = some Goroutine.done := by
        rw [List.getElem?_eq_getElem hj1, h.toS.cbDone (by omega) _ (List.getElem_mem hj1)]
      exact ⟨by rw [h.toC.cntCb j, startedAt_done _ _ hd], h.toT.called j hd⟩
    · rw [h.toC.cntClose, hr]
      rfl
    · rw [h.toC.cntCloseEnd, hr]
      rfl

/-- The example run ends with `Run` returned: the first listener failed to
close, and still each `stop`, the callback and `close` ran once. -/
theorem shutdown_completes_witness :
    (∀ i, (demoWorld i).idleAfter ≠ none) ∧
      (∀ c ∈ demoApp.cbs, ∀ ctx t, c ctx t ≠ none) ∧
      ((demoApp.Run demoWorld demoFind 0).run demoSchedule).pc = PC.terminated ∧
      countEv (Event.isStopStart 0) ((demoApp.Run demoWorld demoFind 0).run demoSchedule).trace
        = 1 ∧
      Occurs (· = Event.stopEnd 0 (some (Err.other "close tcp: broken")))
        ((demoApp.Run demoWorld demoFind 0).run demoSchedule).trace ∧
      countEv (Event.isCbStart 0) ((demoApp.Run demoWorld demoFind 0).run demoSchedule).trace
        = 1 ∧
      countEv Event.isCloseEnd ((demoApp.Run demoWorld demoFind 0).run demoSchedule).trace
        = 1 := by
  have h1 : ∀ i, (demoWorld i).idleAfter ≠ none := fun i => by simp [demoWorld]
  have h2 : ∀ c ∈ demoApp.cbs, ∀ ctx t, c ctx t ≠ none := by
    intro c hc ctx t
    have : c = StoreCacheToDBCallBack := by
      simpa [demoApp, NewApp, WithShutdownCallbacks, WithTimeCfg] using hc
    subst this
    unfold StoreCacheToDBCallBack
    split <;> simp
  have h := (shutdown_completes demoApp demoWorld demoFind 0 h1 h2 demoSchedule).2.2.2.2 rfl
  exact ⟨h1, h2, rfl, (h.1 0 (by decide)).1, (h.1 0 (by decide)).2, (h.2.1 0 (by decide)).1,
    h.2.2.2⟩

/-- C5: in every run, each call of a callback `j` of `app.cbs` receives the
context `context.WithTimeout(context.Background(), app.cbTimeout)` made at
the instant of that call: its deadline is that instant plus
`app.cbTimeout`, whatever happened before and whatever the other callbacks
do. -/
theorem callback_deadline (app : App) (world : Nat → SrvWorld) (find : Find) (t0 : Time)
    (ms : List Move) :
    Hist (fun _ x => ∀ j ctx, x.2 = Event.cbStart j ctx →
        j < app.cbs.length ∧
          ctx = Context.WithTimeout Context.Background app.cbTimeout x.1 ∧
          ctx.deadline = some (x.1 + app.cbTimeout))
      ((app.Run world find t0).run ms).trace := by
  refine (app.run_hist world find t0 ms).imp ?_
  intro pre x h j ctx hx
  simp only [Good, hx] at h
  refine ⟨h.1, h.2.1, ?_⟩
  rw [h.2.1]
  rfl

/-- In the example run the callback is called ten seconds and five
nanoseconds after the start, with a deadline three seconds later. -/
theorem callback_deadline_witness :
    (10000000005, Event.cbStart 0 { deadline := some 13000000005 }) ∈
        ((demoApp.Run demoWorld demoFind 0).run demoSchedule).trace ∧
      (some 13000000005 : Option Time) = some (10000000005 + demoApp.cbTimeout) := by
  have hmem : (10000000005, Event.cbStart 0 { deadline := some 13000000005 }) ∈
      ((demoApp.Run demoWorld demoFind 0).run demoSchedule).trace := by decide
  obtain ⟨pre, post, hs⟩ := List.append_of_mem hmem
  exact ⟨hmem, (callback_deadline demoApp demoWorld demoFind 0 demoSchedule pre _ post hs
    0 _ rfl).2.2⟩

/-- While the connections of one listener never become idle, no run of the
program gets past the first `wg.Wait()` of `shutdown`. -/
theorem App.run_blocked (app : App) (world : Nat → SrvWorld) (find : Find) (t0 : Time)
    (ms : List Move) (i : Nat) (hi : i < app.servers.length)
    (hnone : (world i).idleAfter = none) :
    ((app.Run world find t0).run ms).pc.rank ≤ 3 := by
  obtain ⟨h, e1, _, _, _, e6⟩ := app.run_inv world find t0 ms
  by_contra hr
  have hd := h.toS.stop_all_done (by omega) i (by omega)
  have := Sys.run_returned (app.Run world find t0) ms (by simp [App.Run]) i hd
  rw [e6] at this
  exact this hnone

/-- C6: `stop` applies no deadline, against the comment on `shutdownTimeout`
(the timeout of the whole graceful exit).  On the application of `main.go`,
configured with a budget of 30 s: a `stop` whose listener needs 60 s to
drain returns a nil error after more than 30 s instead of a timeout error;
a `stop` whose listener never drains never returns; with such listeners the
main goroutine is still at the first `wg.Wait()` of `shutdown` an hour
after the `stop` calls, and under no schedule does it ever get past it. -/
theorem stop_ignores_shutdownTimeout :
    demoApp.shutdownTimeout = 30 * Second ∧
      (∃ ret, (demoBusiness.stop
          { bindErr := none, idleAfter := some 60000000000, closeErr := none } 0).2 =
            some (ret, none) ∧ 0 + demoApp.shutdownTimeout < ret) ∧
      (demoBusiness.stop (stuckWorld 0) 0).2 = none ∧
      ((demoApp.Run stuckWorld demoFind 0).run stuckSchedule).pc = PC.stopWait ∧
      ((demoApp.Run stuckWorld demoFind 0).run stuckSchedule).now = 3610 * Second ∧
      ∀ ms, ((demoApp.Run stuckWorld demoFind 0).run ms).pc.rank ≤ 3 :=
  ⟨by decide, ⟨60000000000, by decide, by decide⟩, by decide, by decide, by decide,
    fun ms => App.run_blocked demoApp stuckWorld demoFind 0 ms 0 (by decide) rfl⟩

/-- C7: `NewApp` without `WithTimeCfg` leaves the three timings at zero, not
at the defaults of 30 s, 10 s and 3 s that the comments on the fields of
`App` announce. -/
theorem NewApp_zero_timings (servers : List Server) (cbs : List ShutdownCallback) :
    (NewApp servers []).shutdownTimeout = 0 ∧ (NewApp servers []).waitTime = 0 ∧
      (NewApp servers []).cbTimeout = 0 ∧
      (NewApp servers [WithShutdownCallbacks cbs]).shutdownTimeout = 0 ∧
      (NewApp servers [WithShutdownCallbacks cbs]).waitTime = 0 ∧
      (NewApp servers [WithShutdownCallbacks cbs]).cbTimeout = 0 ∧
      (0 : Duration) ≠ 30 * Second ∧ (0 : Duration) ≠ 10 * Second ∧
      (0 : Duration) ≠ 3 * Second :=
  ⟨rfl, rfl, rfl, rfl, rfl, rfl, by decide, by decide, by decide⟩

/-- C8: calling `rejectReq` twice leaves the server as calling it once does,
and `reject` is true then, whatever the state of the gate before. -/
theorem rejectReq_idempotent (s : Server) :
    s.rejectReq.rejectReq = s.rejectReq ∧ s.rejectReq.mux.reject = true :=
  ⟨rfl, rfl⟩

/-- C9: a closed gate stays closed.  No operation of the package on a server
resets `reject`; no move of the program (registrations, requests, the
goroutines of `Run`, the steps of `shutdown` and `close`) resets it in any
state; and in a run, once `rejectReq` ran on server `i`, its gate is closed
in every later state. -/
theorem gate_never_reopens (srv : Server) (ops : List ServerOp) (s : Sys) (i : Nat)
    (app : App) (world : Nat → SrvWorld) (find : Find) (t0 : Time) (ms ns : List Move) :
    (srv.mux.reject = true → (ops.foldl Server.apply srv).mux.reject = true) ∧
      (s.rejecting i = true → (s.run ms).rejecting i = true) ∧
      (Occurs (· = Event.rejectReq i) ((app.Run world find t0).run ms).trace →
        ((app.Run world find t0).run (ms ++ ns)).rejecting i = true) := by
  refine ⟨Server.foldl_apply_reject ops srv, Sys.run_rejecting s ms i, fun ho => ?_⟩
  rw [Sys.run_append]
  refine Sys.run_rejecting _ ns i ?_
  obtain ⟨h, e1, _⟩ := app.run_inv world find t0 ms
  have hi : i < ((app.Run world find t0).run ms).app.servers.length := by
    obtain ⟨y, hy, he⟩ := ho
    obtain ⟨pre, post, hsplit⟩ := List.append_of_mem hy
    have hgood := h.toH.hist pre y post hsplit
    simp only [Good, he] at hgood
    exact hgood
  have hsrv := List.getElem?_eq_getElem hi
  simp only [Sys.rejecting, hsrv]
  exact h.toT.gate i _ ho hsrv

/-- In the example, the gate of server 0 is closed after the first step of
`shutdown` and stays closed to the end; registering a route, starting and
stopping do not reopen the gate of a server. -/
theorem gate_never_reopens_witness :
    ((NewServer "admin" "localhost:8081").rejectReq.mux.reject = true ∧
        ((demoApp.Run demoWorld demoFind 0).run [.signal, .main]).rejecting 0 = true ∧
        Occurs (· = Event.rejectReq 0)
          ((demoApp.Run demoWorld demoFind 0).run [.signal, .main]).trace) ∧
      ([ServerOp.Handle "/x" (fun _ => []), ServerOp.start (demoWorld 1),
          ServerOp.stop (demoWorld 1) 7].foldl Server.apply
        (NewServer "admin" "localhost:8081").rejectReq).mux.reject = true ∧
      (((demoApp.Run demoWorld demoFind 0).run [.signal, .main]).run demoSchedule).rejecting 0
        = true ∧
      ((demoApp.Run demoWorld demoFind 0).run ([.signal, .main] ++ demoSchedule)).rejecting 0
        = true := by
  have h := gate_never_reopens (NewServer "admin" "localhost:8081").rejectReq
    [ServerOp.Handle "/x" (fun _ => []), ServerOp.start (demoWorld 1),
      ServerOp.stop (demoWorld 1) 7]
    ((demoApp.Run demoWorld demoFind 0).run [.signal, .main]) 0 demoApp demoWorld demoFind 0
    demoSchedule demoSchedule
  have g := gate_never_reopens (NewServer "admin" "localhost:8081").rejectReq []
    (demoApp.Run demoWorld demoFind 0) 0 demoApp demoWorld demoFind 0
    [.signal, .main] demoSchedule
  have ho : Occurs (· = Event.rejectReq 0)
      ((demoApp.Run demoWorld demoFind 0).run [.signal, .main]).trace :=
    ⟨(0, Event.rejectReq 0), by decide, rfl⟩
  exact ⟨⟨rfl, rfl, ho⟩, h.1 rfl, h.2.1 rfl, g.2.2 ho⟩

/-- C10: two applications that differ only in `shutdownTimeout` behave alike
under every schedule: the same events at the same instants (the same sleep,
the same callback contexts), the same program counter, clock, goroutines
and servers; the states differ in that field only. -/
theorem shutdownTimeout_unused (app : App) (d : Duration) (world : Nat → SrvWorld)
    (find : Find) (t0 : Time) (ms : List Move) :
    (App.Run { app with shutdownTimeout := d } world find t0).run ms =
        ((app.Run world find t0).run ms).withShutdownTimeout d ∧
      ((App.Run { app with shutdownTimeout := d } world find t0).run ms).trace =
        ((app.Run world find t0).run ms).trace ∧
      ((App.Run { app with shutdownTimeout := d } world find t0).run ms).pc =
        ((app.Run world find t0).run ms).pc ∧
      ((App.Run { app with shutdownTimeout := d } world find t0).run ms).now =
        ((app.Run world find t0).run ms).now := by
  have e : App.Run { app with shutdownTimeout := d } world find t0 =
      (app.Run world find t0).withShutdownTimeout d := rfl
  have h := Sys.run_withShutdownTimeout (app.Run world find t0) d ms
  rw [e, h]
  exact ⟨rfl, rfl, rfl, rfl⟩

end service
